import Mathlib

/-!
Shallow embedding of the go-obvious/gateway repository.

The Go sources embedded here are `internal/gateway.go` (the request/response
converters, the response-capture `ResponseWriter`, and the `Gateway.Invoke`
pipeline), the root-package context helpers (`context.go`, provided as an
unnamed source file), and the entry points in `v1.go`.

Modelling conventions:
* Go byte strings are modelled as Lean `String` over their characters; the
  development only evaluates them on ASCII data, where Go's byte-wise
  operations and the char-wise operations used here agree.
* Go maps (`http.Header`, `url.Values`, the event's string maps) are modelled
  as association lists with the keys understood to be distinct (a Go map
  cannot hold duplicate keys); iteration order of a Go map is unspecified, and
  the list order stands in for one such order.  Claims proved below do not
  depend on that order except through per-key value order, which Go preserves.
* Bytes are `Nat` values (< 256 on all data the functions construct).
* Functions from the Go standard library that the repository calls
  (`mime.ParseMediaType`, `url.Parse`, `url.Values.Encode`, `base64`) are
  embedded at the fidelity the repository exercises, following the standard
  library sources; each carries a comment stating its domain.
-/

/-! ### Character and string helpers (ASCII) -/

/-- ASCII whitespace, as recognised by `unicode.IsSpace` on ASCII input
(space, tab, newline, vertical tab, form feed, carriage return). -/
def isSpaceChar (c : Char) : Bool :=
  c = ' ' || c.toNat = 9 || c.toNat = 10 || c.toNat = 11 || c.toNat = 12 || c.toNat = 13

/-- `strings.ToLower` on an ASCII character. -/
def toLowerChar (c : Char) : Char :=
  if 65 ≤ c.toNat ∧ c.toNat ≤ 90 then Char.ofNat (c.toNat + 32) else c

/-- `strings.ToUpper` on an ASCII character. -/
def toUpperChar (c : Char) : Char :=
  if 97 ≤ c.toNat ∧ c.toNat ≤ 122 then Char.ofNat (c.toNat - 32) else c

/-- Drop leading ASCII whitespace (`strings.TrimLeftFunc(_, unicode.IsSpace)`). -/
def trimLeftChars : List Char → List Char
  | [] => []
  | c :: cs => if isSpaceChar c then trimLeftChars cs else c :: cs

/-- `strings.TrimSpace` on a character list. -/
def trimChars (s : List Char) : List Char :=
  (trimLeftChars (trimLeftChars s.reverse).reverse)

/-- `strings.Cut`: split at the first occurrence of character `sep`;
returns the part before, the part after, and whether `sep` occurred. -/
def cutChar (sep : Char) : List Char → (List Char × List Char × Bool)
  | [] => ([], [], false)
  | c :: cs =>
    if c = sep then ([], cs, true)
    else
      let r := cutChar sep cs
      (c :: r.1, r.2.1, r.2.2)

/-- Longest prefix of characters satisfying `p`, and the rest
(`List.span`, used to model the token-consuming loops in `mime`). -/
def spanChars (p : Char → Bool) : List Char → (List Char × List Char)
  | [] => ([], [])
  | c :: cs =>
    if p c then
      let r := spanChars p cs
      (c :: r.1, r.2)
    else ([], c :: cs)

/-- Byte-wise (here: char-wise, ASCII-faithful) string order used by Go's
`slices.Sort` on strings. -/
def charListLe : List Char → List Char → Bool
  | [], _ => true
  | _ :: _, [] => false
  | a :: as, b :: bs =>
    if a.toNat < b.toNat then true
    else if b.toNat < a.toNat then false
    else charListLe as bs

/-- String order: `a` sorts no later than `b`. -/
def strLeb (a b : String) : Bool := charListLe a.toList b.toList

/-- The bytes of a Go string (ASCII-faithful). -/
def strBytes (s : String) : List Nat := s.toList.map Char.toNat

/-- A Go string built from bytes, `string(b)` (ASCII-faithful). -/
def bytesToStr (bs : List Nat) : String := String.mk (bs.map Char.ofNat)

/-! ### Association lists standing in for Go maps -/

/-- Go map read: the value stored at key `k`, if any. -/
def assocGet {α : Type} : List (String × α) → String → Option α
  | [], _ => none
  | (k2, v) :: rest, k => if k2 = k then some v else assocGet rest k

/-- Go map write `m[k] = v`: replace the entry for `k`, or add one. -/
def assocSet {α : Type} : List (String × α) → String → α → List (String × α)
  | [], k, v => [(k, v)]
  | (k2, v2) :: rest, k, v =>
    if k2 = k then (k, v) :: rest else (k2, v2) :: assocSet rest k v

/-! ### `net/textproto` header-key canonicalisation and `http.Header` -/

/-- `validHeaderFieldByte` from `net/textproto`: the characters allowed in a
header field name (HTTP token characters). -/
def isHTTPTokenChar (c : Char) : Bool :=
  c.isAlphanum || c = '!' || c = '#' || c = '$' || c = '%' || c = '&' ||
  c.toNat = 39 || c = '*' || c = '+' || c = '-' || c = '.' || c = '^' ||
  c = '_' || c.toNat = 96 || c = '|' || c = '~'

/-- The canonicalisation loop of `textproto.CanonicalMIMEHeaderKey`: uppercase
the first letter and each letter following a hyphen, lowercase the rest. -/
def canonChars : Bool → List Char → List Char
  | _, [] => []
  | upper, c :: cs =>
    (if upper then toUpperChar c else toLowerChar c) :: canonChars (c = '-') cs

/-- `http.CanonicalHeaderKey` / `textproto.CanonicalMIMEHeaderKey`: canonical
form of a header key; keys containing invalid bytes are returned unchanged. -/
def canonicalHeaderKey (s : String) : String :=
  if s.toList.all isHTTPTokenChar then String.mk (canonChars true s.toList)
  else s

/-- `http.Header`: a map from (canonicalised, when written through the
methods) header keys to lists of values. -/
abbrev HdrMap := List (String × List String)

/-- `http.Header.Get`: first value stored under the canonicalised key,
or the empty string. -/
def headerGet (h : HdrMap) (k : String) : String :=
  match assocGet h (canonicalHeaderKey k) with
  | some (v :: _) => v
  | _ => ""

/-- `http.Header.Set`: replace the values under the canonicalised key. -/
def headerSet (h : HdrMap) (k v : String) : HdrMap :=
  assocSet h (canonicalHeaderKey k) [v]

/-- `http.Header.Add`: append a value under the canonicalised key. -/
def headerAdd (h : HdrMap) (k v : String) : HdrMap :=
  match assocGet h (canonicalHeaderKey k) with
  | some vs => assocSet h (canonicalHeaderKey k) (vs ++ [v])
  | none => assocSet h (canonicalHeaderKey k) [v]

/-! ### The response-capture sink (`ResponseWriter` in `internal/gateway.go`)

The `closeNotifyCh` channel field is concurrency plumbing with no effect on
any captured data and is omitted. -/

/-- The state of the capture sink: the body buffer, the header map, whether
the header has been written, and the status code. -/
structure ResponseWriter where
  buf : List Nat
  header : HdrMap
  wroteHeader : Bool
  statusCode : Nat
deriving Repr, DecidableEq

/-- `NewResponse`: fresh sink with an empty header map and status 200. -/
def newResponse : ResponseWriter :=
  { buf := [], header := [], wroteHeader := false, statusCode := 200 }

/-- `ResponseWriter.WriteHeader`: first call records the status code and
defaults the Content-Type; later calls are dropped. -/
def ResponseWriter.writeHeader (w : ResponseWriter) (statusCode : Nat) :
    ResponseWriter :=
  if w.wroteHeader then w
  else
    { w with
      header :=
        if headerGet w.header "Content-Type" = "" then
          headerSet w.header "Content-Type" "text/plain; charset=utf8"
        else w.header,
      statusCode := statusCode,
      wroteHeader := true }

/-- `ResponseWriter.Write`: ensure the header is written, then append the
bytes to the buffer. -/
def ResponseWriter.write (w : ResponseWriter) (b : List Nat) : ResponseWriter :=
  let w2 := if ¬ w.wroteHeader then w.writeHeader 200 else w
  { w2 with buf := w2.buf ++ b }

/-- The data handed to the response converters by `Gateway.Invoke`. -/
structure ResponseData where
  statusCode : Nat
  headers : HdrMap
  body : List Nat
deriving Repr, DecidableEq

/-- The `ResponseData` captured from a sink after the handler returns. -/
def ResponseWriter.captured (w : ResponseWriter) : ResponseData :=
  { statusCode := w.statusCode, headers := w.header, body := w.buf }

/-! ### `mime.ParseMediaType` (Go standard library `mime/mediatype.go`)

Embedded to the fidelity the repository exercises: the media-type token
check, the parameter loop with its duplicate-name detection, and the
quoted-string value syntax.  The post-loop continuation stitching only
shapes the returned parameter map (which `isTextMime` discards) and cannot
fail, so it is not modelled.  Only the returned media type and the presence
of an error are kept. -/

/-- `isTSpecial` from Go `mime`: RFC 1521 special characters. -/
def isTSpecialChar (c : Char) : Bool :=
  c = '(' || c = ')' || c = '<' || c = '>' || c = '@' || c = ',' || c = ';' ||
  c = ':' || c = '\\' || c.toNat = 34 || c = '/' || c = '[' || c = ']' ||
  c = '?' || c = '='

/-- `isTokenChar` from Go `mime`: printable ASCII that is not special. -/
def isMimeTokenChar (c : Char) : Bool :=
  Nat.blt 32 c.toNat && Nat.blt c.toNat 127 && !(isTSpecialChar c)

/-- `checkMediaTypeDisposition`: the media type must be a token, optionally
followed by a slash and a subtype token, with nothing after. -/
def checkMediaTypeDisposition (s : List Char) : Bool :=
  let t := spanChars isMimeTokenChar s
  if t.1 = [] then false
  else
    match t.2 with
    | [] => true
    | c :: rest =>
      if c ≠ '/' then false
      else
        let sub := spanChars isMimeTokenChar rest
        decide (sub.1 ≠ []) && decide (sub.2 = [])

/-- Body of a quoted-string parameter value, after the opening quote:
returns the decoded value and the rest after the closing quote, or `none`
when there is no closing quote or a raw CR/LF appears. -/
def consumeQuotedBody : List Char → Option (List Char × List Char)
  | [] => none
  | c :: cs =>
    if c.toNat = 34 then some ([], cs)
    else if c = '\\' &&
        (match cs with
         | c2 :: _ => c2 = '\\' || isTSpecialChar c2
         | [] => false) then
      match cs with
      | c2 :: cs2 => (consumeQuotedBody cs2).map (fun r => (c2 :: r.1, r.2))
      | [] => none
    else if c.toNat = 13 || c.toNat = 10 then none
    else (consumeQuotedBody cs).map (fun r => (c :: r.1, r.2))

/-- `consumeValue`: a token, or a quoted string.  A failure is signalled the
way Go does it: empty value with the input returned unchanged. -/
def consumeValue (v : List Char) : (List Char × List Char) :=
  match v with
  | [] => ([], [])
  | c :: cs =>
    if c.toNat ≠ 34 then spanChars isMimeTokenChar v
    else
      match consumeQuotedBody cs with
      | some r => r
      | none => ([], v)

/-- `consumeMediaParam`: one `;key=value` parameter; failure returns an
empty key with the input unchanged. -/
def consumeMediaParam (v : List Char) : (List Char × List Char × List Char) :=
  match trimLeftChars v with
  | [] => ([], [], v)
  | c :: rest1 =>
    if c ≠ ';' then ([], [], v)
    else
      let t := spanChars isMimeTokenChar (trimLeftChars rest1)
      let param := t.1.map toLowerChar
      if param = [] then ([], [], v)
      else
        match trimLeftChars t.2 with
        | [] => ([], [], v)
        | c2 :: rest4 =>
          if c2 ≠ '=' then ([], [], v)
          else
            let rest5 := trimLeftChars rest4
            let r := consumeValue rest5
            if r.1 = [] ∧ r.2 = rest5 then ([], [], v)
            else (param, r.1, r.2)

/-- The parameter loop of `ParseMediaType`, returning whether parsing
succeeded.  `params` collects plain parameters and `contin` the
continuation (`name*`) parameters, each checked for conflicting duplicates.
The fuel argument bounds the iteration count; every successful step consumes
at least the leading semicolon, so `length + 1` fuel always suffices. -/
def mimeParamsLoop : Nat → List Char → List (String × String) →
    List (String × List (String × String)) → Bool
  | 0, _, _, _ => false
  | fuel + 1, v, params, contin =>
    match trimLeftChars v with
    | [] => true
    | v2head :: v2tail =>
      let v2 := v2head :: v2tail
      let r := consumeMediaParam v2
      if r.1 = [] then decide (trimChars r.2.2 = [Char.ofNat 59])
      else
        let key := String.mk r.1
        let value := String.mk r.2.1
        let c := cutChar (Char.ofNat 42) r.1
        if c.2.2 then
          let baseName := String.mk c.1
          let pmap := (assocGet contin baseName).getD []
          match assocGet pmap key with
          | some vv =>
            if vv = value then
              mimeParamsLoop fuel r.2.2 params
                (assocSet contin baseName (assocSet pmap key value))
            else false
          | none =>
            mimeParamsLoop fuel r.2.2 params
              (assocSet contin baseName (assocSet pmap key value))
        else
          match assocGet params key with
          | some vv =>
            if vv = value then mimeParamsLoop fuel r.2.2 (assocSet params key value) contin
            else false
          | none => mimeParamsLoop fuel r.2.2 (assocSet params key value) contin

/-- `mime.ParseMediaType`: the parsed media type on success, `none` on any
of its error returns (no media type, bad token syntax, invalid or duplicate
parameter). -/
def parseMediaType (v : String) : Option String :=
  let base := (cutChar (Char.ofNat 59) v.toList).1
  let mediatype := trimChars (base.map toLowerChar)
  if checkMediaTypeDisposition mediatype then
    let rest := v.toList.drop base.length
    if mimeParamsLoop (rest.length + 1) rest [] [] then some (String.mk mediatype)
    else none
  else none

/-! ### The binary/text classification helpers of `internal/gateway.go` -/

/-- `isTextMime`: the content type parses and is `text/*` or one of the
fixed allow-list. -/
def isTextMime (kind : String) : Bool :=
  match parseMediaType kind with
  | none => false
  | some mt =>
    if List.isPrefixOf "text/".toList mt.toList then true
    else
      mt == "image/svg+xml" || mt == "application/json" || mt == "application/xml" ||
      mt == "application/javascript" || mt == "application/vnd.api+json"

/-- `isBinary`: not a recognised textual content type, or gzip encoded. -/
def isBinary (h : HdrMap) : Bool :=
  !(isTextMime (headerGet h "Content-Type")) ||
  (headerGet h "Content-Encoding" == "gzip")

/-! ### `encoding/base64` standard encoding -/

/-- Value of one standard-alphabet base64 character. -/
def b64DecodeChar (c : Char) : Option Nat :=
  if 65 ≤ c.toNat ∧ c.toNat ≤ 90 then some (c.toNat - 65)
  else if 97 ≤ c.toNat ∧ c.toNat ≤ 122 then some (c.toNat - 97 + 26)
  else if 48 ≤ c.toNat ∧ c.toNat ≤ 57 then some (c.toNat - 48 + 52)
  else if c = '+' then some 62
  else if c = '/' then some 63
  else none

/-- Decode four-character quanta; `=` padding is allowed only in the last
two positions of the final quantum, and the input length must be a multiple
of four (Go `StdEncoding` with standard padding; trailing bits are not
checked, as in Go's default non-strict mode). -/
def b64DecodeQuanta : List Char → Option (List Nat)
  | [] => some []
  | a :: b :: c :: d :: rest =>
    match b64DecodeChar a, b64DecodeChar b with
    | some va, some vb =>
      if c = '=' then
        if d = '=' ∧ rest = [] then some [va * 4 + vb / 16] else none
      else
        match b64DecodeChar c with
        | some vc =>
          if d = '=' then
            if rest = [] then some [va * 4 + vb / 16, (vb % 16) * 16 + vc / 4]
            else none
          else
            match b64DecodeChar d with
            | some vd =>
              (b64DecodeQuanta rest).map
                (fun bs => (va * 4 + vb / 16) :: ((vb % 16) * 16 + vc / 4) ::
                  ((vc % 4) * 64 + vd) :: bs)
            | none => none
        | none => none
    | _, _ => none
  | _ => none

/-- `base64.StdEncoding.DecodeString`: newline characters are ignored, then
the quanta are decoded. -/
def base64Decode (s : String) : Option (List Nat) :=
  b64DecodeQuanta (s.toList.filter (fun c => c.toNat ≠ 10 ∧ c.toNat ≠ 13))

/-- One standard-alphabet base64 character for a 6-bit value. -/
def b64EncChar (n : Nat) : Char :=
  if n < 26 then Char.ofNat (65 + n)
  else if n < 52 then Char.ofNat (97 + n - 26)
  else if n < 62 then Char.ofNat (48 + n - 52)
  else if n = 62 then '+'
  else '/'

/-- Encode three-byte chunks into four characters, padding the tail. -/
def b64EncodeChunks : List Nat → List Char
  | [] => []
  | [a] => [b64EncChar (a / 4), b64EncChar ((a % 4) * 16), '=', '=']
  | [a, b] =>
    [b64EncChar (a / 4), b64EncChar ((a % 4) * 16 + b / 16),
     b64EncChar ((b % 16) * 4), '=']
  | a :: b :: c :: rest =>
    b64EncChar (a / 4) :: b64EncChar ((a % 4) * 16 + b / 16) ::
    b64EncChar ((b % 16) * 4 + c / 64) :: b64EncChar (c % 64) ::
    b64EncodeChunks rest

/-- `base64.StdEncoding.EncodeToString`. -/
def base64Encode (bs : List Nat) : String := String.mk (b64EncodeChunks bs)

/-! ### The response converters (`ConvertResponseV1`, `ConvertResponseV2`) -/

/-- `events.APIGatewayProxyResponse`, the fields the converter populates. -/
structure APIGatewayProxyResponse where
  statusCode : Nat
  headers : List (String × String)
  multiValueHeaders : List (String × List String)
  body : String
  isBase64Encoded : Bool
deriving Repr, DecidableEq

/-- `events.APIGatewayV2HTTPResponse`, the fields the converter populates. -/
structure APIGatewayV2HTTPResponse where
  statusCode : Nat
  headers : List (String × String)
  multiValueHeaders : List (String × List String)
  body : String
  isBase64Encoded : Bool
  cookies : List String
deriving Repr, DecidableEq

/-- One iteration of the header loop of `ConvertResponseV1`: a single-valued
name goes into both maps, a multi-valued name only into the multi-value map,
an empty value list is skipped. -/
def convertResponseV1Step
    (acc : List (String × String) × List (String × List String))
    (p : String × List String) :
    List (String × String) × List (String × List String) :=
  if p.2.length = 1 then (assocSet acc.1 p.1 p.2.headI, assocSet acc.2 p.1 p.2)
  else if p.2.length > 1 then (acc.1, assocSet acc.2 p.1 p.2)
  else acc

/-- `ConvertResponseV1`. -/
def convertResponseV1 (data : ResponseData) : APIGatewayProxyResponse :=
  let maps := data.headers.foldl convertResponseV1Step ([], [])
  let isBin := isBinary data.headers
  { statusCode := data.statusCode
    headers := maps.1
    multiValueHeaders := maps.2
    body := if isBin then base64Encode data.body else bytesToStr data.body
    isBase64Encoded := isBin }

/-- One iteration of the header loop of `ConvertResponseV2`: names whose
canonical form is `Set-Cookie` are diverted to the cookie list, the rest are
mapped as in the V1 converter. -/
def convertResponseV2Step
    (acc : List (String × String) × List (String × List String) × List String)
    (p : String × List String) :
    List (String × String) × List (String × List String) × List String :=
  if canonicalHeaderKey p.1 = "Set-Cookie" then (acc.1, acc.2.1, acc.2.2 ++ p.2)
  else if p.2.length = 1 then
    (assocSet acc.1 p.1 p.2.headI, assocSet acc.2.1 p.1 p.2, acc.2.2)
  else if p.2.length > 1 then (acc.1, assocSet acc.2.1 p.1 p.2, acc.2.2)
  else acc

/-- `ConvertResponseV2`. -/
def convertResponseV2 (data : ResponseData) : APIGatewayV2HTTPResponse :=
  let maps := data.headers.foldl convertResponseV2Step ([], [], [])
  let isBin := isBinary data.headers
  { statusCode := data.statusCode
    headers := maps.1
    multiValueHeaders := maps.2.1
    body := if isBin then base64Encode data.body else bytesToStr data.body
    isBase64Encoded := isBin
    cookies := maps.2.2 }

/-! ### `net/url`: path parsing, query parsing, query encoding -/

/-- Control characters, rejected anywhere in a URL by `url.Parse`. -/
def isCTLChar (c : Char) : Bool := c.toNat < 32 || c.toNat = 127

/-- Value of one hexadecimal digit character. -/
def hexDigitVal (c : Char) : Option Nat :=
  if 48 ≤ c.toNat ∧ c.toNat ≤ 57 then some (c.toNat - 48)
  else if 65 ≤ c.toNat ∧ c.toNat ≤ 70 then some (c.toNat - 55)
  else if 97 ≤ c.toNat ∧ c.toNat ≤ 102 then some (c.toNat - 87)
  else none

/-- Go `url.unescape` in path/fragment mode: validate and decode `%XX`
escapes; a malformed escape is an error, `+` is left alone. -/
def unescapePercent : List Char → Option (List Char)
  | [] => some []
  | c :: rest =>
    if c = '%' then
      match rest with
      | a :: b :: rest2 =>
        match hexDigitVal a, hexDigitVal b with
        | some ha, some hb =>
          (unescapePercent rest2).map (fun r => Char.ofNat (16 * ha + hb) :: r)
        | _, _ => none
      | _ => none
    else (unescapePercent rest).map (fun r => c :: r)

/-- Go `url.unescape` in query-component mode: additionally `+` decodes to a
space. -/
def queryUnescape : List Char → Option (List Char)
  | [] => some []
  | c :: rest =>
    if c = '%' then
      match rest with
      | a :: b :: rest2 =>
        match hexDigitVal a, hexDigitVal b with
        | some ha, some hb =>
          (queryUnescape rest2).map (fun r => Char.ofNat (16 * ha + hb) :: r)
        | _, _ => none
      | _ => none
    else if c = '+' then (queryUnescape rest).map (fun r => ' ' :: r)
    else (queryUnescape rest).map (fun r => c :: r)

/-- Does a colon appear before the first slash?  Go gives such strings a
scheme/opaque or colon-error treatment that the gateway never sees. -/
def colonBeforeSlash : List Char → Bool
  | [] => false
  | c :: cs => if c = ':' then true else if c = '/' then false else colonBeforeSlash cs

/-- The path shapes covered by this model of `url.Parse`: no authority
prefix `//` and no colon before the first slash.  API Gateway delivers
rooted paths, which always satisfy this; other shapes are mapped to `none`
here while Go would parse them as a scheme or an authority. -/
def pathInModelDomain (p : List Char) : Bool :=
  !(colonBeforeSlash p) &&
  (match p with
   | c1 :: c2 :: _ => !(c1 = '/' && c2 = '/')
   | _ => true)

/-- The components of a parsed request URL that the converters read. -/
structure ParsedURL where
  path : String
  rawQuery : String
deriving Repr, DecidableEq

/-- `url.Parse` on the event's path, restricted to `pathInModelDomain`:
reject control characters, split off the fragment at `#` (whose escapes
must still be valid), split off the raw query at `?`, and percent-decode
the path, failing on invalid escapes. -/
def parseRequestPath (s : String) : Option ParsedURL :=
  let cs := s.toList
  if cs.any isCTLChar then none
  else
    let cf := cutChar (Char.ofNat 35) cs
    match unescapePercent cf.2.1 with
    | none => none
    | some _ =>
      let cq := cutChar (Char.ofNat 63) cf.1
      if pathInModelDomain cq.1 then
        match unescapePercent cq.1 with
        | some up => some { path := String.mk up, rawQuery := String.mk cq.2.1 }
        | none => none
      else none

/-- `url.Values.Add`: append a value under a key. -/
def valuesAdd (q : List (String × List String)) (k v : String) :
    List (String × List String) :=
  match assocGet q k with
  | some vs => assocSet q k (vs ++ [v])
  | none => assocSet q k [v]

/-- Split on a separator character, keeping empty segments. -/
def splitOnChar (sep : Char) : List Char → List (List Char)
  | [] => [[]]
  | c :: cs =>
    let r := splitOnChar sep cs
    if c = sep then [] :: r
    else
      match r with
      | h :: t => (c :: h) :: t
      | [] => [[c]]

/-- `url.ParseQuery` as consumed through `URL.Query()`: split on `&`; a
pair that is empty, contains a semicolon, or fails to unescape is skipped
(`Query()` discards the error), the rest are added in order. -/
def parseQuery (s : String) : List (String × List String) :=
  (splitOnChar (Char.ofNat 38) s.toList).foldl
    (fun m kv =>
      if kv = [] then m
      else if kv.contains (Char.ofNat 59) then m
      else
        let ckv := cutChar (Char.ofNat 61) kv
        match queryUnescape ckv.1, queryUnescape ckv.2.1 with
        | some k, some v => valuesAdd m (String.mk k) (String.mk v)
        | _, _ => m)
    []

/-- Sort strings ascending in byte order, as Go's `slices.Sort` does with
the map keys (the keys are distinct, so any sorting algorithm yields the
same list). -/
def sortStrings (l : List String) : List String :=
  List.insertionSort (fun a b => strLeb a b = true) l

/-- The characters `url.QueryEscape` leaves unescaped. -/
def isUnreservedQueryChar (c : Char) : Bool :=
  c.isAlphanum || c = '-' || c = '_' || c = '.' || c = '~'

/-- Uppercase hexadecimal digit. -/
def hexUpperDigit (n : Nat) : Char :=
  if n < 10 then Char.ofNat (48 + n) else Char.ofNat (55 + n)

/-- `url.QueryEscape` for one character: unreserved characters stay, space
becomes `+`, everything else is percent-encoded. -/
def queryEscapeChar (c : Char) : List Char :=
  if isUnreservedQueryChar c then [c]
  else if c = ' ' then ['+']
  else ['%', hexUpperDigit (c.toNat / 16), hexUpperDigit (c.toNat % 16)]

/-- `url.QueryEscape` (ASCII-faithful). -/
def queryEscape (s : String) : String :=
  String.mk (s.toList.flatMap queryEscapeChar)

/-- `url.Values.Encode`: keys sorted ascending by their raw (unescaped)
byte order, then `escapedKey=escapedValue` pairs joined with `&`, one pair
per value in stored order. -/
def valuesEncode (q : List (String × List String)) : String :=
  String.intercalate "&"
    ((sortStrings (q.map Prod.fst)).flatMap
      (fun k => ((assocGet q k).getD []).map
        (fun v => queryEscape k ++ "=" ++ queryEscape v)))

/-! ### The gateway event types (`aws-lambda-go/events`)

Only the fields the converters read are modelled; the remaining fields of
the AWS structs are never inspected by this repository. -/

/-- `events.APIGatewayRequestIdentity`, restricted to the field read. -/
structure APIGatewayRequestIdentity where
  sourceIP : String
deriving Repr, DecidableEq, Inhabited

/-- `events.APIGatewayProxyRequestContext`, restricted to the fields read. -/
structure APIGatewayProxyRequestContext where
  requestID : String
  stage : String
  identity : APIGatewayRequestIdentity
deriving Repr, DecidableEq, Inhabited

/-- `events.APIGatewayProxyRequest` (legacy schema), the fields read. -/
structure APIGatewayProxyRequest where
  path : String
  httpMethod : String
  headers : List (String × String)
  multiValueHeaders : List (String × List String)
  queryStringParameters : List (String × String)
  multiValueQueryStringParameters : List (String × List String)
  body : String
  isBase64Encoded : Bool
  requestContext : APIGatewayProxyRequestContext
deriving Repr, DecidableEq, Inhabited

/-- `events.APIGatewayV2HTTPRequestContextHTTPDescription`, fields read. -/
structure V2HTTPDescription where
  method : String
  sourceIP : String
deriving Repr, DecidableEq, Inhabited

/-- `events.APIGatewayV2HTTPRequestContext`, the fields read. -/
structure APIGatewayV2HTTPRequestContext where
  requestID : String
  stage : String
  http : V2HTTPDescription
deriving Repr, DecidableEq, Inhabited

/-- `events.APIGatewayV2HTTPRequest` (HTTP-API schema), the fields read. -/
structure APIGatewayV2HTTPRequest where
  rawPath : String
  rawQueryString : String
  headers : List (String × String)
  cookies : List String
  body : String
  isBase64Encoded : Bool
  requestContext : APIGatewayV2HTTPRequestContext
deriving Repr, DecidableEq, Inhabited

/-! ### `context.Context` and the two context-key packages

A Go context is a chain of key/value attachments looked up by dynamic
equality of the keys, where keys of distinct Go types are never equal.  The
repository declares the key type `Key int` twice: once in the root package
(`context.go`) and once in `internal/gateway.go`; despite the shared name
and value these are distinct Go types, so they index distinct slots.  The
values stored are modelled by the dynamic-value sum `CtxVal`; a retrieval
type-asserts a particular Go type, which here is a match on the matching
constructor. -/

/-- A context key: the two `Key` types of the repository (by package), and
plain string keys such as the X-Ray trace key. -/
inductive CtxKey where
  | internalKey : Int → CtxKey
  | rootKey : Int → CtxKey
  | strKey : String → CtxKey
deriving Repr, DecidableEq

/-- A dynamically-typed context value, covering the types the repository
stores or asserts. -/
inductive CtxVal where
  | proxyEvent : APIGatewayProxyRequest → CtxVal
  | v2Event : APIGatewayV2HTTPRequest → CtxVal
  | proxyReqCtx : APIGatewayProxyRequestContext → CtxVal
  | str : String → CtxVal
deriving Repr, DecidableEq

/-- A context: key/value attachments, most recent first. -/
abbrev Ctx := List (CtxKey × CtxVal)

/-- `context.Context.Value`: the most recently attached value for the key. -/
def ctxValue : Ctx → CtxKey → Option CtxVal
  | [], _ => none
  | (k2, v) :: rest, k => if k2 = k then some v else ctxValue rest k

/-- `context.WithValue`. -/
def ctxWithValue (ctx : Ctx) (k : CtxKey) (v : CtxVal) : Ctx := (k, v) :: ctx

/-- `internal.NewContext`: attach a value under the internal package's key
(`internal.Key(0)`). -/
def internalNewContext (ctx : Ctx) (v : CtxVal) : Ctx :=
  ctxWithValue ctx (CtxKey.internalKey 0) v

/-- `internal.RequestContext[T]` instantiated at
`T = events.APIGatewayProxyRequest`: type-asserted read of the internal
package's slot. -/
def internalRequestContextProxyEvent (ctx : Ctx) : APIGatewayProxyRequest × Bool :=
  match ctxValue ctx (CtxKey.internalKey 0) with
  | some (CtxVal.proxyEvent e) => (e, true)
  | _ => (default, false)

/-- The root package's public `RequestContext` (`context.go`): reads the
root package's slot (`gateway.Key(0)`) and type-asserts
`events.APIGatewayProxyRequestContext`. -/
def rootRequestContext (ctx : Ctx) : APIGatewayProxyRequestContext × Bool :=
  match ctxValue ctx (CtxKey.rootKey 0) with
  | some (CtxVal.proxyReqCtx c) => (c, true)
  | _ => (default, false)

/-- The root package's unexported `newContext` (`context.go`): attaches the
event's request context under the root package's key.  No code in the
repository calls it. -/
def rootNewContext (ctx : Ctx) (e : APIGatewayProxyRequest) : Ctx :=
  ctxWithValue ctx (CtxKey.rootKey 0) (CtxVal.proxyReqCtx e.requestContext)

/-! ### The request converters (`internal/gateway.go`) -/

/-- The canonical in-process request: the fields of the `*http.Request`
that the converters populate and the claims mention.  The raw query of the
HTTP-API converter is carried verbatim; the cosmetic re-parse performed by
`http.NewRequest` on the assembled URL string is not modelled. -/
structure HTTPRequest where
  method : String
  urlPath : String
  rawQuery : String
  header : HdrMap
  body : List Nat
  remoteAddr : String
  host : String
  ctx : Ctx
deriving Repr, DecidableEq, Inhabited

/-- `http.NewRequest` method validation: non-empty and all token bytes. -/
def validMethod (m : String) : Bool :=
  !(m.toList.isEmpty) && m.toList.all isHTTPTokenChar

/-- The query-building step of `ConvertAPIGatewayProxyRequest`: start from
the query parsed out of the path, `Set` each single-value parameter, then
assign each multi-value parameter's whole list. -/
def buildProxyQuery (e : APIGatewayProxyRequest) (rawQueryOfPath : String) :
    List (String × List String) :=
  let q0 := parseQuery rawQueryOfPath
  let q1 := e.queryStringParameters.foldl (fun q p => assocSet q p.1 [p.2]) q0
  e.multiValueQueryStringParameters.foldl (fun q p => assocSet q p.1 p.2) q1

/-- The header-building steps of `ConvertAPIGatewayProxyRequest`: `Set` the
single-value headers, `Add` the multi-value headers, default
Content-Length, force `X-Request-Id` and `X-Stage`, and copy a string
trace identifier from the dispatch context.  (Only string-typed trace
values are modelled; the invocation host stores the trace id as a string.) -/
def buildProxyHeader (e : APIGatewayProxyRequest) (bodyBytes : List Nat)
    (ctx : Ctx) : HdrMap :=
  let h1 := e.headers.foldl (fun h p => headerSet h p.1 p.2) []
  let h2 := e.multiValueHeaders.foldl
    (fun h p => p.2.foldl (fun h2 v => headerAdd h2 p.1 v) h) h1
  let h3 :=
    if headerGet h2 "Content-Length" = "" ∧ bodyBytes ≠ [] then
      headerSet h2 "Content-Length" (toString bodyBytes.length)
    else h2
  let h4 := headerSet h3 "X-Request-Id" e.requestContext.requestID
  let h5 := headerSet h4 "X-Stage" e.requestContext.stage
  match ctxValue ctx (CtxKey.strKey "x-amzn-trace-id") with
  | some (CtxVal.str t) => headerSet h5 "X-Amzn-Trace-Id" t
  | _ => h5

/-- `ConvertAPIGatewayProxyRequest` (legacy schema): parse the path, build
the merged query, decode the body, validate the method, build the headers,
attach the event to the context, and set the host from the Host header. -/
def convertAPIGatewayProxyRequest (ctx : Ctx) (e : APIGatewayProxyRequest) :
    Option HTTPRequest :=
  match parseRequestPath e.path with
  | none => none
  | some u =>
    let rawQuery := valuesEncode (buildProxyQuery e u.rawQuery)
    match (if e.isBase64Encoded then base64Decode e.body else some (strBytes e.body)) with
    | none => none
    | some bodyBytes =>
      let method := if e.httpMethod = "" then "GET" else e.httpMethod
      if validMethod method then
        let header := buildProxyHeader e bodyBytes ctx
        some { method := method, urlPath := u.path, rawQuery := rawQuery,
               header := header, body := bodyBytes,
               remoteAddr := e.requestContext.identity.sourceIP,
               host := headerGet header "Host",
               ctx := internalNewContext ctx (CtxVal.proxyEvent e) }
      else none

/-- The HTTP-API header value convention: split on commas, trim each part. -/
def splitCommaTrim (s : String) : List String :=
  (splitOnChar (Char.ofNat 44) s.toList).map (fun part => String.mk (trimChars part))

/-- The header-building steps of `ConvertAPIGatewayV2HTTPRequest`:
comma-split and `Add` each header value, `Add` each cookie, default
Content-Length, force `X-Request-Id` and `X-Stage`, and copy a string
trace identifier from the dispatch context. -/
def buildV2Header (e : APIGatewayV2HTTPRequest) (bodyBytes : List Nat)
    (ctx : Ctx) : HdrMap :=
  let h1 := e.headers.foldl
    (fun h p => (splitCommaTrim p.2).foldl (fun h2 v => headerAdd h2 p.1 v) h) []
  let h2 := e.cookies.foldl (fun h c => headerAdd h "Cookie" c) h1
  let h3 :=
    if headerGet h2 "Content-Length" = "" ∧ bodyBytes ≠ [] then
      headerSet h2 "Content-Length" (toString bodyBytes.length)
    else h2
  let h4 := headerSet h3 "X-Request-Id" e.requestContext.requestID
  let h5 := headerSet h4 "X-Stage" e.requestContext.stage
  match ctxValue ctx (CtxKey.strKey "x-amzn-trace-id") with
  | some (CtxVal.str t) => headerSet h5 "X-Amzn-Trace-Id" t
  | _ => h5

/-- `ConvertAPIGatewayV2HTTPRequest` (HTTP-API schema): parse the raw path,
take the raw query verbatim, decode the body, validate the method, build
the headers, attach the event to the context, set the host. -/
def convertAPIGatewayV2HTTPRequest (ctx : Ctx) (e : APIGatewayV2HTTPRequest) :
    Option HTTPRequest :=
  match parseRequestPath e.rawPath with
  | none => none
  | some u =>
    match (if e.isBase64Encoded then base64Decode e.body else some (strBytes e.body)) with
    | none => none
    | some bodyBytes =>
      let method :=
        if e.requestContext.http.method = "" then "GET"
        else e.requestContext.http.method
      if validMethod method then
        let header := buildV2Header e bodyBytes ctx
        some { method := method, urlPath := u.path, rawQuery := e.rawQueryString,
               header := header, body := bodyBytes,
               remoteAddr := e.requestContext.http.sourceIP,
               host := headerGet header "Host",
               ctx := internalNewContext ctx (CtxVal.v2Event e) }
      else none

/-! ### `Gateway.Invoke`

The JSON unmarshal of the payload and marshal of the result carry no
claim-relevant logic and sit outside the model; `Invoke` is modelled from
the decoded event on.  A handler is any state transformer on the capture
sink (an `http.Handler` may call any of the sink's operations). -/

/-- `Gateway.Invoke` for the legacy pair: convert the event or fail, then
dispatch the handler on a fresh sink and convert the captured response. -/
def gatewayInvokeV1 (handler : HTTPRequest → ResponseWriter → ResponseWriter)
    (ctx : Ctx) (e : APIGatewayProxyRequest) :
    Except String APIGatewayProxyResponse :=
  match convertAPIGatewayProxyRequest ctx e with
  | none => Except.error "failed to convert event to request"
  | some req => Except.ok (convertResponseV1 (handler req newResponse).captured)

/-- `Gateway.Invoke` for the HTTP-API pair. -/
def gatewayInvokeV2 (handler : HTTPRequest → ResponseWriter → ResponseWriter)
    (ctx : Ctx) (e : APIGatewayV2HTTPRequest) :
    Except String APIGatewayV2HTTPResponse :=
  match convertAPIGatewayV2HTTPRequest ctx e with
  | none => Except.error "failed to convert event to request"
  | some req => Except.ok (convertResponseV2 (handler req newResponse).captured)

/-! ### Reachable states of the capture sink

The operations a handler can perform on the sink during one invocation:
the sink's `Write` and `WriteHeader`, and mutation of the map returned by
`Header()` through `Set`/`Add` with non-empty values (the shapes handler
code produces; deleting headers or setting empty values is not part of the
modelled handler behaviour). -/

/-- States reachable from a fresh sink. -/
inductive ReachRW : ResponseWriter → Prop where
  | init : ReachRW newResponse
  | writeHeaderStep (w : ResponseWriter) (c : Nat) :
      ReachRW w → ReachRW (w.writeHeader c)
  | writeStep (w : ResponseWriter) (b : List Nat) :
      ReachRW w → ReachRW (w.write b)
  | setHeaderStep (w : ResponseWriter) (k v : String) :
      ReachRW w → v ≠ "" → ReachRW { w with header := headerSet w.header k v }
  | addHeaderStep (w : ResponseWriter) (k v : String) :
      ReachRW w → v ≠ "" → ReachRW { w with header := headerAdd w.header k v }

/-- States reachable from a fresh sink by a handler that never itself sets
the Content-Type header. -/
inductive ReachRWNoCT : ResponseWriter → Prop where
  | init : ReachRWNoCT newResponse
  | writeHeaderStep (w : ResponseWriter) (c : Nat) :
      ReachRWNoCT w → ReachRWNoCT (w.writeHeader c)
  | writeStep (w : ResponseWriter) (b : List Nat) :
      ReachRWNoCT w → ReachRWNoCT (w.write b)
  | setHeaderStep (w : ResponseWriter) (k v : String) :
      ReachRWNoCT w → v ≠ "" → canonicalHeaderKey k ≠ "Content-Type" →
      ReachRWNoCT { w with header := headerSet w.header k v }
  | addHeaderStep (w : ResponseWriter) (k v : String) :
      ReachRWNoCT w → v ≠ "" → canonicalHeaderKey k ≠ "Content-Type" →
      ReachRWNoCT { w with header := headerAdd w.header k v }



/-! ### Concrete example data used by witnesses and counterexamples -/

/-- The keys of an encoded query in emission order, URL-encoded. -/
def encodedQueryKeys (q : List (String × List String)) : List String :=
  (sortStrings (q.map Prod.fst)).map queryEscape

/-- The query-merging example event of the specification. -/
def exampleQueryEvent : APIGatewayProxyRequest :=
  { path := "/test", httpMethod := "GET",
    headers := [("Content-Type", "application/json")],
    multiValueHeaders := [],
    queryStringParameters := [("param1", "value1"), ("param2", "value2")],
    multiValueQueryStringParameters := [("param3", ["value3a", "value3b"])],
    body := "", isBase64Encoded := false,
    requestContext := default }

/-- An event whose body is valid base64 for the bytes of "hi". -/
def exampleBase64Event : APIGatewayProxyRequest :=
  { exampleQueryEvent with body := "aGk=", isBase64Encoded := true }

/-- An event whose declared-base64 body does not decode. -/
def exampleBadBase64Event : APIGatewayProxyRequest :=
  { exampleQueryEvent with body := "!!!", isBase64Encoded := true }

/-- A V2 event whose declared-base64 body does not decode. -/
def exampleBadBase64EventV2 : APIGatewayV2HTTPRequest :=
  { rawPath := "/test", rawQueryString := "", headers := [], cookies := [],
    body := "!!!", isBase64Encoded := true, requestContext := default }

/-- A V2 event whose body is valid base64 for the bytes of "hi". -/
def exampleBase64EventV2 : APIGatewayV2HTTPRequest :=
  { exampleBadBase64EventV2 with body := "aGk=" }

/-- An event with multi-value query keys whose raw order and URL-encoded
order disagree: a space escapes to a plus (0x2B), a bang escapes to a
percent sequence (0x25). -/
def spaceBangQueryEvent : APIGatewayProxyRequest :=
  { path := "/x", httpMethod := "GET", headers := [], multiValueHeaders := [],
    queryStringParameters := [],
    multiValueQueryStringParameters := [("a ", ["1"]), ("a!", ["2"])],
    body := "", isBase64Encoded := false, requestContext := default }

/-- A captured response with one single-valued and one multi-valued
header. -/
def exampleHeaderData : ResponseData :=
  { statusCode := 200,
    headers := [("Content-Type", ["text/plain"]), ("X-Multi", ["a", "b"])],
    body := [] }

/-- A captured response carrying only a single-valued Set-Cookie header. -/
def exampleSetCookieData : ResponseData :=
  { statusCode := 200, headers := [("Set-Cookie", ["a=b"])], body := [] }

/-- A captured response with two Set-Cookie values and a content type. -/
def exampleCookiesData : ResponseData :=
  { statusCode := 200,
    headers := [("Set-Cookie", ["cookie1=value1", "cookie2=value2"])],
    body := [] }

/-- The sink state of a handler that adds Content-Encoding gzip, never
touches Content-Type, and writes a body. -/
def gzipState : ResponseWriter :=
  ResponseWriter.write
    { newResponse with header := headerAdd newResponse.header "Content-Encoding" "gzip" }
    (strBytes "hi")

/-- The sink state of a handler that only writes a body. -/
def plainWriteState : ResponseWriter := newResponse.write (strBytes "ok")

/-! ## Theorems -/

/-- Helper: `WriteHeader` is a no-op once the header has been written. -/
theorem ResponseWriter.writeHeader_noop (w : ResponseWriter) (c : Nat)
    (h : w.wroteHeader = true) : w.writeHeader c = w := by
  simp [ResponseWriter.writeHeader, h]

/-- Helper: after any `WriteHeader` call the `wroteHeader` flag is set. -/
theorem ResponseWriter.wroteHeader_writeHeader (w : ResponseWriter) (c : Nat) :
    (w.writeHeader c).wroteHeader = true := by
  by_cases h : w.wroteHeader = true
  · simp [ResponseWriter.writeHeader, h]
  · simp [ResponseWriter.writeHeader, h]

/-- C8: writing the status header is first-call-wins idempotent: on a sink
that has not yet written its header, the first `WriteHeader` records its
status code, and every later `WriteHeader` is a no-op. -/
theorem writeHeader_first_call_wins :
    (∀ (w : ResponseWriter) (c : Nat), w.wroteHeader = true →
      w.writeHeader c = w) ∧
    (∀ (w : ResponseWriter) (s1 s2 : Nat), w.wroteHeader = false →
      (w.writeHeader s1).statusCode = s1 ∧
      (w.writeHeader s1).writeHeader s2 = w.writeHeader s1) := by
  refine ⟨ResponseWriter.writeHeader_noop, ?_⟩
  intro w s1 s2 h
  refine ⟨?_, ?_⟩
  · simp [ResponseWriter.writeHeader, h]
  · exact ResponseWriter.writeHeader_noop _ _ (w.wroteHeader_writeHeader s1)

/-- Concrete instance of C8: on a fresh sink, writing status 404 and then 500
leaves the recorded status at 404, and the second call changes nothing. -/
theorem writeHeader_first_call_wins_witness :
    (newResponse.writeHeader 404).statusCode = 404 ∧
    (newResponse.writeHeader 404).writeHeader 500 = newResponse.writeHeader 404 :=
  writeHeader_first_call_wins.2 newResponse 404 500 (by rfl)

/-! ### Claims C2 and C3: classification of captured responses -/

/-- The text-recognition condition of the specification: a `text/*` type or
one of the fixed allow-list. -/
def textAllowed (mt : String) : Prop :=
  List.isPrefixOf "text/".toList mt.toList = true ∨ mt = "image/svg+xml" ∨
  mt = "application/json" ∨ mt = "application/xml" ∨
  mt = "application/javascript" ∨ mt = "application/vnd.api+json"

/-- The claim's binary condition: the Content-Type fails to parse, or parses
to an unrecognised type, or the Content-Encoding is gzip. -/
def claimBinary (h : HdrMap) : Prop :=
  parseMediaType (headerGet h "Content-Type") = none ∨
  (∃ mt, parseMediaType (headerGet h "Content-Type") = some mt ∧ ¬ textAllowed mt) ∨
  headerGet h "Content-Encoding" = "gzip"

/-- Helper: `isTextMime` holds exactly when the content type parses to a
recognised textual media type. -/
theorem isTextMime_iff (kind : String) :
    isTextMime kind = true ↔ ∃ mt, parseMediaType kind = some mt ∧ textAllowed mt := by
  cases hp : parseMediaType kind with
  | none => simp [isTextMime, hp]
  | some mt =>
    simp only [isTextMime, hp, Option.some.injEq]
    constructor
    · intro h
      refine ⟨mt, rfl, ?_⟩
      by_cases hpre : List.isPrefixOf "text/".toList mt.toList = true
      · exact Or.inl hpre
      · rw [if_neg hpre] at h
        simp only [Bool.or_eq_true, beq_iff_eq] at h
        unfold textAllowed
        tauto
    · rintro ⟨mt2, rfl, hta⟩
      by_cases hpre : List.isPrefixOf "text/".toList mt.toList = true
      · rw [if_pos hpre]
      · rw [if_neg hpre]
        unfold textAllowed at hta
        simp only [Bool.or_eq_true, beq_iff_eq]
        tauto

/-- Helper: `isBinary` holds exactly under the claim's binary condition. -/
theorem isBinary_iff (h : HdrMap) : isBinary h = true ↔ claimBinary h := by
  cases htmb : isTextMime (headerGet h "Content-Type") with
  | false =>
    have hno : ¬ ∃ mt, parseMediaType (headerGet h "Content-Type") = some mt ∧
        textAllowed mt := by
      rw [← isTextMime_iff, htmb]; simp
    constructor
    · intro _
      cases hp : parseMediaType (headerGet h "Content-Type") with
      | none => exact Or.inl hp
      | some mt =>
        exact Or.inr (Or.inl ⟨mt, hp, fun ha => hno ⟨mt, hp, ha⟩⟩)
    · intro _
      simp [isBinary, htmb]
  | true =>
    obtain ⟨mt, hp, hta⟩ := (isTextMime_iff _).mp htmb
    constructor
    · intro hbin
      have hgz : headerGet h "Content-Encoding" = "gzip" := by
        simpa [isBinary, htmb] using hbin
      exact Or.inr (Or.inr hgz)
    · rintro (hnone | ⟨mt2, hp2, hna⟩ | hgz)
      · rw [hp] at hnone; cases hnone
      · rw [hp] at hp2
        injection hp2 with he
        subst he
        exact absurd hta hna
      · simp [isBinary, hgz]

/-- C3: both response converters mark the body base64-encoded exactly when
the Content-Type header fails to parse, or parses to a media type that is
neither `text/*` nor on the allow-list, or the Content-Encoding is gzip; in
particular an `image/png` response is base64-encoded with the flag true, and
a `text/plain` response is passed through literally with the flag false. -/
theorem response_binary_classification :
    (∀ data : ResponseData,
      ((convertResponseV1 data).isBase64Encoded = true ↔ claimBinary data.headers) ∧
      ((convertResponseV2 data).isBase64Encoded = true ↔ claimBinary data.headers)) ∧
    convertResponseV1
        { statusCode := 200, headers := [("Content-Type", ["image/png"])],
          body := [137, 80, 78, 71] } =
      { statusCode := 200, headers := [("Content-Type", "image/png")],
        multiValueHeaders := [("Content-Type", ["image/png"])],
        body := "iVBORw==", isBase64Encoded := true } ∧
    convertResponseV1
        { statusCode := 200, headers := [("Content-Type", ["text/plain"])],
          body := strBytes "Hello" } =
      { statusCode := 200, headers := [("Content-Type", "text/plain")],
        multiValueHeaders := [("Content-Type", ["text/plain"])],
        body := "Hello", isBase64Encoded := false } := by
  refine ⟨fun data => ⟨isBinary_iff data.headers, isBinary_iff data.headers⟩, ?_, ?_⟩
  · rfl
  · rfl

/-- C2 counterexample: on the data captured from a sink with no writes, the
legacy converter sets the base64 flag to true (the empty Content-Type does
not parse, so the body counts as binary), not false as claimed. -/
theorem no_write_flag_counterexample :
    ¬ ((convertResponseV1 newResponse.captured).isBase64Encoded = false) := by
  decide

/-- C2 amended: a sink with no writes converts, under either schema, to
status 200 with an empty body string — but with the base64-encoded flag set
to true, since the absent Content-Type is classified as binary. -/
theorem no_write_conversion :
    convertResponseV1 newResponse.captured =
      { statusCode := 200, headers := [], multiValueHeaders := [],
        body := "", isBase64Encoded := true } ∧
    convertResponseV2 newResponse.captured =
      { statusCode := 200, headers := [], multiValueHeaders := [],
        body := "", isBase64Encoded := true, cookies := [] } :=
  ⟨rfl, rfl⟩

/-! ### Shape lemmas for the request converters -/

/-- A successful legacy conversion determines every field of the produced
request from the event and the parsed path. -/
theorem convertProxy_eq (ctx : Ctx) (e : APIGatewayProxyRequest) (req : HTTPRequest)
    (h : convertAPIGatewayProxyRequest ctx e = some req) :
    ∃ u bodyBytes, parseRequestPath e.path = some u ∧
      (if e.isBase64Encoded then base64Decode e.body else some (strBytes e.body)) =
        some bodyBytes ∧
      req = { method := (if e.httpMethod = "" then "GET" else e.httpMethod),
              urlPath := u.path,
              rawQuery := valuesEncode (buildProxyQuery e u.rawQuery),
              header := buildProxyHeader e bodyBytes ctx,
              body := bodyBytes,
              remoteAddr := e.requestContext.identity.sourceIP,
              host := headerGet (buildProxyHeader e bodyBytes ctx) "Host",
              ctx := internalNewContext ctx (CtxVal.proxyEvent e) } := by
  unfold convertAPIGatewayProxyRequest at h
  revert h
  cases hp : parseRequestPath e.path with
  | none => intro h; cases h
  | some u =>
    cases hb : (if e.isBase64Encoded then base64Decode e.body else some (strBytes e.body)) with
    | none => intro h; cases h
    | some bodyBytes =>
      intro h
      simp only [] at h
      by_cases hv : validMethod (if e.httpMethod = "" then "GET" else e.httpMethod) = true
      · rw [if_pos hv] at h
        injection h with h2
        exact ⟨u, bodyBytes, rfl, rfl, h2.symm⟩
      · rw [if_neg hv] at h
        cases h

/-- A successful HTTP-API conversion determines every field of the produced
request from the event and the parsed path. -/
theorem convertV2_eq (ctx : Ctx) (e : APIGatewayV2HTTPRequest) (req : HTTPRequest)
    (h : convertAPIGatewayV2HTTPRequest ctx e = some req) :
    ∃ u bodyBytes, parseRequestPath e.rawPath = some u ∧
      (if e.isBase64Encoded then base64Decode e.body else some (strBytes e.body)) =
        some bodyBytes ∧
      req = { method := (if e.requestContext.http.method = "" then "GET"
                         else e.requestContext.http.method),
              urlPath := u.path,
              rawQuery := e.rawQueryString,
              header := buildV2Header e bodyBytes ctx,
              body := bodyBytes,
              remoteAddr := e.requestContext.http.sourceIP,
              host := headerGet (buildV2Header e bodyBytes ctx) "Host",
              ctx := internalNewContext ctx (CtxVal.v2Event e) } := by
  unfold convertAPIGatewayV2HTTPRequest at h
  revert h
  cases hp : parseRequestPath e.rawPath with
  | none => intro h; cases h
  | some u =>
    cases hb : (if e.isBase64Encoded then base64Decode e.body else some (strBytes e.body)) with
    | none => intro h; cases h
    | some bodyBytes =>
      intro h
      simp only [] at h
      by_cases hv : validMethod (if e.requestContext.http.method = "" then "GET"
          else e.requestContext.http.method) = true
      · rw [if_pos hv] at h
        injection h with h2
        exact ⟨u, bodyBytes, rfl, rfl, h2.symm⟩
      · rw [if_neg hv] at h
        cases h

/-- Looking up a key that no attachment carries yields nothing. -/
theorem ctxValue_none_of_absent (ctx : Ctx) (k : CtxKey)
    (h : ∀ p ∈ ctx, p.1 ≠ k) : ctxValue ctx k = none := by
  induction ctx with
  | nil => rfl
  | cons p rest ih =>
    obtain ⟨k2, v⟩ := p
    have hk2 : k2 ≠ k := h (k2, v) (List.mem_cons_self _ _)
    rw [ctxValue, if_neg hk2]
    exact ih (fun q hq => h q (List.mem_cons_of_mem _ hq))

/-- C1: on every successfully converted legacy event, the converter attaches
the whole event under the internal package's context key, where the internal
generic retrieval instantiated at the event type finds it — but the public
root-package `RequestContext`, which reads the root package's distinct key
type and asserts the request-context struct, reports not-found (the host
context carries no root-package attachment; nothing in the repository
creates one). -/
theorem rootRequestContext_never_finds (ctx : Ctx) (e : APIGatewayProxyRequest)
    (req : HTTPRequest)
    (hconv : convertAPIGatewayProxyRequest ctx e = some req)
    (hroot : ∀ p ∈ ctx, p.1 ≠ CtxKey.rootKey 0) :
    internalRequestContextProxyEvent req.ctx = (e, true) ∧
    rootRequestContext req.ctx = (default, false) := by
  obtain ⟨u, bb, hp, hb, hreq⟩ := convertProxy_eq ctx e req hconv
  subst hreq
  constructor
  · rfl
  · show rootRequestContext (internalNewContext ctx (CtxVal.proxyEvent e)) = (default, false)
    unfold rootRequestContext internalNewContext ctxWithValue
    rw [ctxValue, if_neg (by simp), ctxValue_none_of_absent ctx _ hroot]

/-- C1 witness: a concrete converted event under the empty host context. -/
theorem rootRequestContext_never_finds_witness :
    internalRequestContextProxyEvent
        ((convertAPIGatewayProxyRequest [] exampleQueryEvent).getD default).ctx =
      (exampleQueryEvent, true) ∧
    rootRequestContext
        ((convertAPIGatewayProxyRequest [] exampleQueryEvent).getD default).ctx =
      (default, false) :=
  rootRequestContext_never_finds [] exampleQueryEvent _ (by rfl)
    (by intro p hp; simp at hp)

/-- Conversion of a declared-base64 event with an undecodable body fails
(legacy schema). -/
theorem convertProxy_none_of_bad_base64 (ctx : Ctx) (e : APIGatewayProxyRequest)
    (henc : e.isBase64Encoded = true) (hdec : base64Decode e.body = none) :
    convertAPIGatewayProxyRequest ctx e = none := by
  unfold convertAPIGatewayProxyRequest
  cases hp : parseRequestPath e.path with
  | none => rfl
  | some u => simp [henc, hdec]

/-- Conversion of a declared-base64 event with an undecodable body fails
(HTTP-API schema). -/
theorem convertV2_none_of_bad_base64 (ctx : Ctx) (e : APIGatewayV2HTTPRequest)
    (henc : e.isBase64Encoded = true) (hdec : base64Decode e.body = none) :
    convertAPIGatewayV2HTTPRequest ctx e = none := by
  unfold convertAPIGatewayV2HTTPRequest
  cases hp : parseRequestPath e.rawPath with
  | none => rfl
  | some u => simp [henc, hdec]

/-- C5: for every event of either schema declared base64-encoded: if the
body decodes, the canonical request's body equals the decoded bytes; if the
body is not valid base64, the conversion fails and `Invoke` stops with the
conversion error — the same outcome for every handler, so the handler is
never invoked. -/
theorem base64_body_handling :
    (∀ (ctx : Ctx) (e : APIGatewayProxyRequest), e.isBase64Encoded = true →
      (∀ bs req, base64Decode e.body = some bs →
        convertAPIGatewayProxyRequest ctx e = some req → req.body = bs) ∧
      (base64Decode e.body = none →
        convertAPIGatewayProxyRequest ctx e = none ∧
        ∀ handler, gatewayInvokeV1 handler ctx e =
          Except.error "failed to convert event to request")) ∧
    (∀ (ctx : Ctx) (e : APIGatewayV2HTTPRequest), e.isBase64Encoded = true →
      (∀ bs req, base64Decode e.body = some bs →
        convertAPIGatewayV2HTTPRequest ctx e = some req → req.body = bs) ∧
      (base64Decode e.body = none →
        convertAPIGatewayV2HTTPRequest ctx e = none ∧
        ∀ handler, gatewayInvokeV2 handler ctx e =
          Except.error "failed to convert event to request")) := by
  constructor
  · intro ctx e henc
    constructor
    · intro bs req hdec hconv
      obtain ⟨u, bb, hp, hb, hreq⟩ := convertProxy_eq ctx e req hconv
      rw [henc, if_pos rfl, hdec] at hb
      injection hb with hb2
      subst hb2
      rw [hreq]
    · intro hdec
      have hnone := convertProxy_none_of_bad_base64 ctx e henc hdec
      exact ⟨hnone, fun handler => by simp [gatewayInvokeV1, hnone]⟩
  · intro ctx e henc
    constructor
    · intro bs req hdec hconv
      obtain ⟨u, bb, hp, hb, hreq⟩ := convertV2_eq ctx e req hconv
      rw [henc, if_pos rfl, hdec] at hb
      injection hb with hb2
      subst hb2
      rw [hreq]
    · intro hdec
      have hnone := convertV2_none_of_bad_base64 ctx e henc hdec
      exact ⟨hnone, fun handler => by simp [gatewayInvokeV2, hnone]⟩

/-- C5 witness: a body of "aGk=" decodes to the bytes of "hi" under both
schemas; a body of "!!!" aborts both invocations with the conversion
error. -/
theorem base64_body_handling_witness :
    ((convertAPIGatewayProxyRequest [] exampleBase64Event).getD default).body = [104, 105] ∧
    gatewayInvokeV1 (fun _ w => w.write [0]) [] exampleBadBase64Event =
      Except.error "failed to convert event to request" ∧
    ((convertAPIGatewayV2HTTPRequest [] exampleBase64EventV2).getD default).body = [104, 105] ∧
    gatewayInvokeV2 (fun _ w => w.write [0]) [] exampleBadBase64EventV2 =
      Except.error "failed to convert event to request" :=
  ⟨(base64_body_handling.1 [] exampleBase64Event rfl).1 [104, 105] _ (by rfl) (by rfl),
   ((base64_body_handling.1 [] exampleBadBase64Event rfl).2 (by rfl)).2 _,
   (base64_body_handling.2 [] exampleBase64EventV2 rfl).1 [104, 105] _ (by rfl) (by rfl),
   ((base64_body_handling.2 [] exampleBadBase64EventV2 rfl).2 (by rfl)).2 _⟩

/-! ### Association-list lemmas -/

/-- Reading back the key just assigned. -/
theorem assocGet_set_self {α : Type} (m : List (String × α)) (k : String) (v : α) :
    assocGet (assocSet m k v) k = some v := by
  induction m with
  | nil => simp [assocSet, assocGet]
  | cons p rest ih =>
    obtain ⟨k2, v2⟩ := p
    by_cases h : k2 = k
    · simp [assocSet, assocGet, h]
    · simp [assocSet, assocGet, h, ih]

/-- Assigning one key does not change another key's entry. -/
theorem assocGet_set_ne {α : Type} (m : List (String × α)) (k k2 : String) (v : α)
    (h : k ≠ k2) : assocGet (assocSet m k v) k2 = assocGet m k2 := by
  induction m with
  | nil => simp [assocSet, assocGet, h]
  | cons p rest ih =>
    obtain ⟨k3, v3⟩ := p
    by_cases h2 : k3 = k
    · subst h2
      simp [assocSet, assocGet, h, Ne.symm h]
    · by_cases h3 : k3 = k2
      · simp [assocSet, assocGet, h2, h3, Ne.symm h]
      · simp [assocSet, assocGet, h2, h3, Ne.symm h, ih]

/-- A present key is among the stored keys. -/
theorem assocGet_some_mem {α : Type} (m : List (String × α)) (k : String) (v : α)
    (h : assocGet m k = some v) : k ∈ m.map Prod.fst := by
  induction m with
  | nil => simp [assocGet] at h
  | cons p rest ih =>
    obtain ⟨k2, v2⟩ := p
    by_cases h2 : k2 = k
    · simp [h2]
    · rw [assocGet, if_neg h2] at h
      simpa using Or.inr (ih h)

/-- Folding whole-entry assignments over a list whose keys avoid `k` leaves
the entry for `k` unchanged. -/
theorem assocGet_foldl_setAll_absent {α : Type} (l : List (String × α)) :
    ∀ (acc : List (String × α)) (k : String), k ∉ l.map Prod.fst →
      assocGet (l.foldl (fun q p => assocSet q p.1 p.2) acc) k = assocGet acc k := by
  induction l with
  | nil => intro acc k _; rfl
  | cons p rest ih =>
    intro acc k h
    simp only [List.map_cons, List.mem_cons, not_or] at h
    rw [List.foldl_cons, ih _ k h.2,
        assocGet_set_ne acc p.1 k p.2 (fun he => h.1 he.symm)]

/-- After folding whole-entry assignments over a list with distinct keys,
each listed entry is stored intact. -/
theorem assocGet_foldl_setAll_entry {α : Type} (l : List (String × α)) :
    ∀ (acc : List (String × α)) (k : String) (vs : α),
      (l.map Prod.fst).Nodup → (k, vs) ∈ l →
      assocGet (l.foldl (fun q p => assocSet q p.1 p.2) acc) k = some vs := by
  induction l with
  | nil => intro acc k vs _ hmem; cases hmem
  | cons p rest ih =>
    intro acc k vs hnd hmem
    rw [List.foldl_cons]
    rcases List.mem_cons.mp hmem with he | hm
    · subst he
      have hk : k ∉ rest.map Prod.fst := by
        simp only [List.map_cons] at hnd
        exact (List.nodup_cons.mp hnd).1
      rw [assocGet_foldl_setAll_absent rest _ k hk]
      exact assocGet_set_self acc k vs
    · refine ih _ k vs ?_ hm
      simp only [List.map_cons] at hnd
      exact (List.nodup_cons.mp hnd).2

/-! ### Claims C4 and C9: the reconstructed query string -/

/-- C4: for every successfully converted legacy event, the raw query is the
encoding of the merged value map, in which every key of the multi-value map
holds exactly its multi-value entries (overriding any single-value entry for
the same key); on the specification's example event the raw query is the
stated string. -/
theorem query_merge_multi_overrides :
    (∀ (ctx : Ctx) (e : APIGatewayProxyRequest) (u : ParsedURL) (req : HTTPRequest),
      parseRequestPath e.path = some u →
      convertAPIGatewayProxyRequest ctx e = some req →
      req.rawQuery = valuesEncode (buildProxyQuery e u.rawQuery) ∧
      ∀ k vs, (e.multiValueQueryStringParameters.map Prod.fst).Nodup →
        (k, vs) ∈ e.multiValueQueryStringParameters →
        assocGet (buildProxyQuery e u.rawQuery) k = some vs) ∧
    (convertAPIGatewayProxyRequest [] exampleQueryEvent).map HTTPRequest.rawQuery =
      some "param1=value1&param2=value2&param3=value3a&param3=value3b" := by
  constructor
  · intro ctx e u req hp hconv
    obtain ⟨u2, bb, hp2, hb, hreq⟩ := convertProxy_eq ctx e req hconv
    rw [hp] at hp2
    injection hp2 with hu
    subst hu
    constructor
    · rw [hreq]
    · intro k vs hnd hmem
      exact assocGet_foldl_setAll_entry e.multiValueQueryStringParameters _ k vs hnd hmem
  · rfl

/-- C4 witness: the specification's example event, converted under the
empty host context. -/
theorem query_merge_multi_overrides_witness :
    ((convertAPIGatewayProxyRequest [] exampleQueryEvent).getD default).rawQuery =
      valuesEncode (buildProxyQuery exampleQueryEvent "") ∧
    assocGet (buildProxyQuery exampleQueryEvent "") "param3" =
      some ["value3a", "value3b"] := by
  have h := query_merge_multi_overrides.1 [] exampleQueryEvent
    { path := "/test", rawQuery := "" }
    ((convertAPIGatewayProxyRequest [] exampleQueryEvent).getD default)
    (by rfl) (by rfl)
  exact ⟨h.1, h.2 "param3" ["value3a", "value3b"] (by decide) (by decide)⟩

/-- Totality of the byte-wise string order. -/
theorem charListLe_total : ∀ (a b : List Char),
    charListLe a b = true ∨ charListLe b a = true
  | [], _ => Or.inl rfl
  | _ :: _, [] => Or.inr rfl
  | x :: xs, y :: ys => by
    by_cases hxy : x.toNat < y.toNat
    · exact Or.inl (by rw [charListLe, if_pos hxy])
    · by_cases hyx : y.toNat < x.toNat
      · exact Or.inr (by rw [charListLe, if_pos hyx])
      · rcases charListLe_total xs ys with h | h
        · exact Or.inl (by rw [charListLe, if_neg hxy, if_neg hyx]; exact h)
        · exact Or.inr (by rw [charListLe, if_neg hyx, if_neg hxy]; exact h)

/-- Transitivity of the byte-wise string order. -/
theorem charListLe_trans : ∀ (a b c : List Char),
    charListLe a b = true → charListLe b c = true → charListLe a c = true
  | [], _, _, _, _ => rfl
  | _ :: _, [], _, h1, _ => by simp [charListLe] at h1
  | _ :: _, _ :: _, [], _, h2 => by simp [charListLe] at h2
  | x :: xs, y :: ys, z :: zs, h1, h2 => by
    rw [charListLe] at h1 h2 ⊢
    by_cases hxy : x.toNat < y.toNat
    · by_cases hyz : y.toNat < z.toNat
      · rw [if_pos (Nat.lt_trans hxy hyz)]
      · by_cases hzy : z.toNat < y.toNat
        · rw [if_neg hyz, if_pos hzy] at h2
          exact absurd h2 (by simp)
        · rw [if_pos (by omega : x.toNat < z.toNat)]
    · by_cases hyx : y.toNat < x.toNat
      · rw [if_neg hxy, if_pos hyx] at h1
        exact absurd h1 (by simp)
      · rw [if_neg hxy, if_neg hyx] at h1
        by_cases hyz : y.toNat < z.toNat
        · rw [if_pos (by omega : x.toNat < z.toNat)]
        · by_cases hzy : z.toNat < y.toNat
          · rw [if_neg hyz, if_pos hzy] at h2
            exact absurd h2 (by simp)
          · rw [if_neg hyz, if_neg hzy] at h2
            rw [if_neg (by omega : ¬ x.toNat < z.toNat),
                if_neg (by omega : ¬ z.toNat < x.toNat)]
            exact charListLe_trans xs ys zs h1 h2

/-- C9 counterexample: for the event with multi-value keys "a " and "a!",
the converted raw query is "a+=1&a%21=2"; the URL-encoded keys appear in
the order ["a+", "a%21"], which is not ascending ("a+" sorts after
"a%21"), because the code sorts the raw keys before escaping them. -/
theorem query_key_order_counterexample :
    (convertAPIGatewayProxyRequest [] spaceBangQueryEvent).map HTTPRequest.rawQuery =
      some "a+=1&a%21=2" ∧
    encodedQueryKeys (buildProxyQuery spaceBangQueryEvent "") = ["a+", "a%21"] ∧
    strLeb "a+" "a%21" = false :=
  ⟨rfl, rfl, rfl⟩

/-- C9 amended: the reconstructed raw query lists parameters grouped by key
in ascending byte-wise order of the raw (pre-encoding) key, regardless of
the order in the event's maps; only the value order within one key is
preserved. -/
theorem query_key_order_sorted :
    ∀ (ctx : Ctx) (e : APIGatewayProxyRequest) (u : ParsedURL) (req : HTTPRequest),
      parseRequestPath e.path = some u →
      convertAPIGatewayProxyRequest ctx e = some req →
      req.rawQuery =
        String.intercalate "&"
          ((sortStrings ((buildProxyQuery e u.rawQuery).map Prod.fst)).flatMap
            (fun k => ((assocGet (buildProxyQuery e u.rawQuery) k).getD []).map
              (fun v => queryEscape k ++ "=" ++ queryEscape v))) ∧
      List.Sorted (fun a b => strLeb a b = true)
        (sortStrings ((buildProxyQuery e u.rawQuery).map Prod.fst)) := by
  intro ctx e u req hp hconv
  obtain ⟨u2, bb, hp2, hb, hreq⟩ := convertProxy_eq ctx e req hconv
  rw [hp] at hp2
  injection hp2 with hu
  subst hu
  constructor
  · rw [hreq]
    rfl
  · letI : IsTotal String (fun a b => strLeb a b = true) :=
      ⟨fun a b => charListLe_total a.toList b.toList⟩
    letI : IsTrans String (fun a b => strLeb a b = true) :=
      ⟨fun a b c => charListLe_trans a.toList b.toList c.toList⟩
    exact List.sorted_insertionSort _ _

/-- C9 witness: the space/bang event, converted under the empty context. -/
theorem query_key_order_sorted_witness :
    ((convertAPIGatewayProxyRequest [] spaceBangQueryEvent).getD default).rawQuery =
      String.intercalate "&"
        ((sortStrings ((buildProxyQuery spaceBangQueryEvent "").map Prod.fst)).flatMap
          (fun k => ((assocGet (buildProxyQuery spaceBangQueryEvent "") k).getD []).map
            (fun v => queryEscape k ++ "=" ++ queryEscape v))) ∧
    List.Sorted (fun a b => strLeb a b = true)
      (sortStrings ((buildProxyQuery spaceBangQueryEvent "").map Prod.fst)) :=
  query_key_order_sorted [] spaceBangQueryEvent { path := "/x", rawQuery := "" }
    ((convertAPIGatewayProxyRequest [] spaceBangQueryEvent).getD default)
    (by rfl) (by rfl)

/-! ### Claims C6 and C7: header mapping of the response converters -/

/-- One V2 header-loop step neither reads nor writes the header maps at a
key different from the entry's. -/
theorem v2_step_get
    (acc : List (String × String) × List (String × List String) × List String)
    (p : String × List String) (k : String) (hne : p.1 ≠ k) :
    assocGet (convertResponseV2Step acc p).1 k = assocGet acc.1 k ∧
    assocGet (convertResponseV2Step acc p).2.1 k = assocGet acc.2.1 k := by
  unfold convertResponseV2Step
  by_cases hck : canonicalHeaderKey p.1 = "Set-Cookie"
  · simp [hck]
  · by_cases hl1 : p.2.length = 1
    · simp [hck, hl1, assocGet_set_ne _ _ _ _ hne]
    · by_cases hl2 : p.2.length > 1
      · simp [hck, hl1, hl2, assocGet_set_ne _ _ _ _ hne]
      · simp [hck, hl1, hl2]

/-- A V2 header-loop step on a Set-Cookie-spelled entry leaves both header
maps unchanged. -/
theorem v2_step_setcookie
    (acc : List (String × String) × List (String × List String) × List String)
    (p : String × List String) (hck : canonicalHeaderKey p.1 = "Set-Cookie") :
    (convertResponseV2Step acc p).1 = acc.1 ∧
    (convertResponseV2Step acc p).2.1 = acc.2.1 := by
  simp [convertResponseV2Step, hck]

/-- Folding the V2 header loop over entries whose keys avoid `k` leaves the
maps unchanged at `k`. -/
theorem v2_fold_absent (l : HdrMap) :
    ∀ (acc : List (String × String) × List (String × List String) × List String)
      (k : String), k ∉ l.map Prod.fst →
      assocGet (l.foldl convertResponseV2Step acc).1 k = assocGet acc.1 k ∧
      assocGet (l.foldl convertResponseV2Step acc).2.1 k = assocGet acc.2.1 k := by
  induction l with
  | nil => intro acc k _; exact ⟨rfl, rfl⟩
  | cons p rest ih =>
    intro acc k h
    simp only [List.map_cons, List.mem_cons, not_or] at h
    rw [List.foldl_cons]
    have step := v2_step_get acc p k (fun he => h.1 he.symm)
    obtain ⟨ih1, ih2⟩ := ih (convertResponseV2Step acc p) k h.2
    exact ⟨ih1.trans step.1, ih2.trans step.2⟩

/-- The cookie list accumulated by the V2 header loop: the values of all
Set-Cookie-spelled entries, in iteration order, each key's values in their
stored order. -/
theorem v2_fold_cookies (l : HdrMap) :
    ∀ (acc : List (String × String) × List (String × List String) × List String),
      (l.foldl convertResponseV2Step acc).2.2 =
        acc.2.2 ++ l.flatMap
          (fun p => if canonicalHeaderKey p.1 = "Set-Cookie" then p.2 else []) := by
  induction l with
  | nil => intro acc; simp
  | cons p rest ih =>
    intro acc
    rw [List.foldl_cons, ih]
    by_cases h : canonicalHeaderKey p.1 = "Set-Cookie"
    · simp [convertResponseV2Step, h]
    · by_cases h1 : p.2.length = 1
      · simp [convertResponseV2Step, h, h1]
      · by_cases h2 : p.2.length > 1
        · simp [convertResponseV2Step, h, h1, h2]
        · simp [convertResponseV2Step, h, h1, h2]

/-- No Set-Cookie-spelled key is ever stored in the V2 header maps. -/
theorem v2_fold_no_setcookie (l : HdrMap) :
    ∀ (acc : List (String × String) × List (String × List String) × List String)
      (k : String), canonicalHeaderKey k = "Set-Cookie" →
      assocGet acc.1 k = none → assocGet acc.2.1 k = none →
      assocGet (l.foldl convertResponseV2Step acc).1 k = none ∧
      assocGet (l.foldl convertResponseV2Step acc).2.1 k = none := by
  induction l with
  | nil => intro acc k _ h1 h2; exact ⟨h1, h2⟩
  | cons p rest ih =>
    intro acc k hk h1 h2
    rw [List.foldl_cons]
    by_cases hck : canonicalHeaderKey p.1 = "Set-Cookie"
    · obtain ⟨e1, e2⟩ := v2_step_setcookie acc p hck
      exact ih _ k hk (e1 ▸ h1) (e2 ▸ h2)
    · have hne : p.1 ≠ k := fun he => hck (he ▸ hk)
      obtain ⟨e1, e2⟩ := v2_step_get acc p k hne
      exact ih _ k hk (e1 ▸ h1) (e2 ▸ h2)

/-- C6: the HTTP-API converter diverts every header whose name is
case-insensitively Set-Cookie out of both header maps and into the cookie
list, one entry per value, in the original order of the values. -/
theorem v2_setcookie_diverted :
    ∀ data : ResponseData,
      (convertResponseV2 data).cookies =
        data.headers.flatMap
          (fun p => if canonicalHeaderKey p.1 = "Set-Cookie" then p.2 else []) ∧
      ∀ k, canonicalHeaderKey k = "Set-Cookie" →
        assocGet (convertResponseV2 data).headers k = none ∧
        assocGet (convertResponseV2 data).multiValueHeaders k = none := by
  intro data
  constructor
  · show (data.headers.foldl convertResponseV2Step ([], [], [])).2.2 = _
    rw [v2_fold_cookies data.headers ([], [], [])]
    rfl
  · intro k hk
    exact v2_fold_no_setcookie data.headers ([], [], []) k hk rfl rfl

/-- C6 witness: two cookie values, retrieved in order; the lowercase-spelled
key finds nothing in the header maps. -/
theorem v2_setcookie_diverted_witness :
    (convertResponseV2 exampleCookiesData).cookies =
      ["cookie1=value1", "cookie2=value2"] ∧
    assocGet (convertResponseV2 exampleCookiesData).headers "set-cookie" = none ∧
    assocGet (convertResponseV2 exampleCookiesData).multiValueHeaders "set-cookie" = none := by
  have h := v2_setcookie_diverted exampleCookiesData
  have h2 := h.2 "set-cookie" (by rfl)
  exact ⟨by rw [h.1]; rfl, h2.1, h2.2⟩

/-- One V1 header-loop step does not change the maps at a key different
from the entry's. -/
theorem v1_step_get
    (acc : List (String × String) × List (String × List String))
    (p : String × List String) (k : String) (hne : p.1 ≠ k) :
    assocGet (convertResponseV1Step acc p).1 k = assocGet acc.1 k ∧
    assocGet (convertResponseV1Step acc p).2 k = assocGet acc.2 k := by
  unfold convertResponseV1Step
  by_cases hl1 : p.2.length = 1
  · simp [hl1, assocGet_set_ne _ _ _ _ hne]
  · by_cases hl2 : p.2.length > 1
    · simp [hl1, hl2, assocGet_set_ne _ _ _ _ hne]
    · simp [hl1, hl2]

/-- Folding the V1 header loop over entries whose keys avoid `k` leaves the
maps unchanged at `k`. -/
theorem v1_fold_absent (l : HdrMap) :
    ∀ (acc : List (String × String) × List (String × List String))
      (k : String), k ∉ l.map Prod.fst →
      assocGet (l.foldl convertResponseV1Step acc).1 k = assocGet acc.1 k ∧
      assocGet (l.foldl convertResponseV1Step acc).2 k = assocGet acc.2 k := by
  induction l with
  | nil => intro acc k _; exact ⟨rfl, rfl⟩
  | cons p rest ih =>
    intro acc k h
    simp only [List.map_cons, List.mem_cons, not_or] at h
    rw [List.foldl_cons]
    have step := v1_step_get acc p k (fun he => h.1 he.symm)
    obtain ⟨ih1, ih2⟩ := ih (convertResponseV1Step acc p) k h.2
    exact ⟨ih1.trans step.1, ih2.trans step.2⟩

/-- After the V1 header loop over a map with distinct keys: a single-valued
entry lands in both maps, a multi-valued entry only in the multi-value map
(the single-value map keeps whatever the accumulator held). -/
theorem v1_fold_entry (l : HdrMap) :
    ∀ (acc : List (String × String) × List (String × List String))
      (k : String) (vs : List String),
      (l.map Prod.fst).Nodup → (k, vs) ∈ l →
      (vs.length = 1 →
        assocGet (l.foldl convertResponseV1Step acc).1 k = some vs.headI ∧
        assocGet (l.foldl convertResponseV1Step acc).2 k = some vs) ∧
      (vs.length > 1 →
        assocGet (l.foldl convertResponseV1Step acc).1 k = assocGet acc.1 k ∧
        assocGet (l.foldl convertResponseV1Step acc).2 k = some vs) := by
  induction l with
  | nil => intro acc k vs _ hmem; cases hmem
  | cons p rest ih =>
    intro acc k vs hnd hmem
    rw [List.foldl_cons]
    rcases List.mem_cons.mp hmem with he | hm
    · subst he
      have hk : k ∉ rest.map Prod.fst := by
        simp only [List.map_cons] at hnd
        exact (List.nodup_cons.mp hnd).1
      have habs := v1_fold_absent rest (convertResponseV1Step acc (k, vs)) k hk
      constructor
      · intro hl1
        refine ⟨habs.1.trans ?_, habs.2.trans ?_⟩
        · simp [convertResponseV1Step, hl1, assocGet_set_self]
        · simp [convertResponseV1Step, hl1, assocGet_set_self]
      · intro hl2
        have hl1 : ¬ vs.length = 1 := by omega
        refine ⟨habs.1.trans ?_, habs.2.trans ?_⟩
        · simp [convertResponseV1Step, hl1, hl2]
        · simp [convertResponseV1Step, hl1, hl2, assocGet_set_self]
    · have hne : p.1 ≠ k := by
        simp only [List.map_cons] at hnd
        intro he
        exact (List.nodup_cons.mp hnd).1 (he ▸ List.mem_map_of_mem Prod.fst hm)
      have hnd2 : (rest.map Prod.fst).Nodup := by
        simp only [List.map_cons] at hnd
        exact (List.nodup_cons.mp hnd).2
      have step := v1_step_get acc p k hne
      obtain ⟨ihe1, ihe2⟩ := ih (convertResponseV1Step acc p) k vs hnd2 hm
      exact ⟨ihe1, fun hl2 => ⟨(ihe2 hl2).1.trans step.1, (ihe2 hl2).2⟩⟩

/-- After the V2 header loop over a map with distinct keys, for an entry
whose name is not Set-Cookie-spelled: a single-valued entry lands in both
maps, a multi-valued entry only in the multi-value map. -/
theorem v2_fold_entry (l : HdrMap) :
    ∀ (acc : List (String × String) × List (String × List String) × List String)
      (k : String) (vs : List String),
      (l.map Prod.fst).Nodup → (k, vs) ∈ l →
      canonicalHeaderKey k ≠ "Set-Cookie" →
      (vs.length = 1 →
        assocGet (l.foldl convertResponseV2Step acc).1 k = some vs.headI ∧
        assocGet (l.foldl convertResponseV2Step acc).2.1 k = some vs) ∧
      (vs.length > 1 →
        assocGet (l.foldl convertResponseV2Step acc).1 k = assocGet acc.1 k ∧
        assocGet (l.foldl convertResponseV2Step acc).2.1 k = some vs) := by
  induction l with
  | nil => intro acc k vs _ hmem; cases hmem
  | cons p rest ih =>
    intro acc k vs hnd hmem hck
    rw [List.foldl_cons]
    rcases List.mem_cons.mp hmem with he | hm
    · subst he
      have hk : k ∉ rest.map Prod.fst := by
        simp only [List.map_cons] at hnd
        exact (List.nodup_cons.mp hnd).1
      have habs := v2_fold_absent rest (convertResponseV2Step acc (k, vs)) k hk
      constructor
      · intro hl1
        refine ⟨habs.1.trans ?_, habs.2.trans ?_⟩
        · simp [convertResponseV2Step, hck, hl1, assocGet_set_self]
        · simp [convertResponseV2Step, hck, hl1, assocGet_set_self]
      · intro hl2
        have hl1 : ¬ vs.length = 1 := by omega
        refine ⟨habs.1.trans ?_, habs.2.trans ?_⟩
        · simp [convertResponseV2Step, hck, hl1, hl2]
        · simp [convertResponseV2Step, hck, hl1, hl2, assocGet_set_self]
    · have hne : p.1 ≠ k := by
        simp only [List.map_cons] at hnd
        intro he
        exact (List.nodup_cons.mp hnd).1 (he ▸ List.mem_map_of_mem Prod.fst hm)
      have hnd2 : (rest.map Prod.fst).Nodup := by
        simp only [List.map_cons] at hnd
        exact (List.nodup_cons.mp hnd).2
      have step := v2_step_get acc p k hne
      obtain ⟨ihe1, ihe2⟩ := ih (convertResponseV2Step acc p) k vs hnd2 hm hck
      exact ⟨ihe1, fun hl2 => ⟨(ihe2 hl2).1.trans step.1, (ihe2 hl2).2⟩⟩

/-- C7 counterexample: a Set-Cookie header with exactly one value is
diverted to the cookie list by the HTTP-API converter and appears in
NEITHER of its header maps, refuting the claim that every single-valued
header name appears in both maps under either converter. -/
theorem header_multiplicity_counterexample :
    ("Set-Cookie", ["a=b"]) ∈ exampleSetCookieData.headers ∧
    (["a=b"] : List String).length = 1 ∧
    (convertResponseV2 exampleSetCookieData).headers = [] ∧
    (convertResponseV2 exampleSetCookieData).multiValueHeaders = [] := by
  refine ⟨by simp [exampleSetCookieData], rfl, rfl, rfl⟩

/-- C7 amended: for every captured response whose header map has distinct
keys, a header name with exactly one value appears in both the single-value
and multi-value maps of the legacy converter, and of the HTTP-API converter
unless the name is case-insensitively Set-Cookie, in which case it appears
in neither map; a name with more than one value appears only in the
multi-value maps, never in the single-value maps. -/
theorem header_multiplicity_mapping :
    ∀ (data : ResponseData), (data.headers.map Prod.fst).Nodup →
    ∀ k vs, (k, vs) ∈ data.headers →
      (vs.length = 1 →
        assocGet (convertResponseV1 data).headers k = some vs.headI ∧
        assocGet (convertResponseV1 data).multiValueHeaders k = some vs ∧
        (canonicalHeaderKey k ≠ "Set-Cookie" →
          assocGet (convertResponseV2 data).headers k = some vs.headI ∧
          assocGet (convertResponseV2 data).multiValueHeaders k = some vs) ∧
        (canonicalHeaderKey k = "Set-Cookie" →
          assocGet (convertResponseV2 data).headers k = none ∧
          assocGet (convertResponseV2 data).multiValueHeaders k = none)) ∧
      (vs.length > 1 →
        assocGet (convertResponseV1 data).headers k = none ∧
        assocGet (convertResponseV1 data).multiValueHeaders k = some vs ∧
        (canonicalHeaderKey k ≠ "Set-Cookie" →
          assocGet (convertResponseV2 data).headers k = none ∧
          assocGet (convertResponseV2 data).multiValueHeaders k = some vs)) := by
  intro data hnd k vs hmem
  have h1 := v1_fold_entry data.headers ([], []) k vs hnd hmem
  constructor
  · intro hl1
    refine ⟨(h1.1 hl1).1, (h1.1 hl1).2, ?_, ?_⟩
    · intro hck
      exact (v2_fold_entry data.headers ([], [], []) k vs hnd hmem hck).1 hl1
    · intro hck
      exact v2_fold_no_setcookie data.headers ([], [], []) k hck rfl rfl
  · intro hl2
    refine ⟨(h1.2 hl2).1, (h1.2 hl2).2, ?_⟩
    intro hck
    exact (v2_fold_entry data.headers ([], [], []) k vs hnd hmem hck).2 hl2

/-- C7 witness: a concrete response with one single-valued and one
two-valued header. -/
theorem header_multiplicity_mapping_witness :
    assocGet (convertResponseV1 exampleHeaderData).headers "Content-Type" =
      some "text/plain" ∧
    assocGet (convertResponseV1 exampleHeaderData).multiValueHeaders "X-Multi" =
      some ["a", "b"] ∧
    assocGet (convertResponseV1 exampleHeaderData).headers "X-Multi" = none ∧
    assocGet (convertResponseV2 exampleHeaderData).headers "X-Multi" = none := by
  have hct := header_multiplicity_mapping exampleHeaderData (by decide)
    "Content-Type" ["text/plain"] (by simp [exampleHeaderData])
  have hxm := header_multiplicity_mapping exampleHeaderData (by decide)
    "X-Multi" ["a", "b"] (by simp [exampleHeaderData])
  refine ⟨(hct.1 rfl).1, (hxm.2 (by decide)).2.1, (hxm.2 (by decide)).1, ?_⟩
  exact ((hxm.2 (by decide)).2.2 (by decide)).1

/-! ### Claim C10: the Content-Type default at the first body write -/

/-- Reading back a header just set. -/
theorem headerGet_set_self (h : HdrMap) (k v : String) :
    headerGet (headerSet h k v) k = v := by
  unfold headerGet headerSet
  rw [assocGet_set_self]

/-- Reading, under an equal canonical key, a header just set. -/
theorem headerGet_set_congr (h : HdrMap) (k k2 v : String)
    (hc : canonicalHeaderKey k = canonicalHeaderKey k2) :
    headerGet (headerSet h k v) k2 = v := by
  unfold headerGet headerSet
  rw [hc, assocGet_set_self]

/-- Setting one header does not change another canonical key's value. -/
theorem headerGet_set_ne (h : HdrMap) (k k2 v : String)
    (hne : canonicalHeaderKey k ≠ canonicalHeaderKey k2) :
    headerGet (headerSet h k v) k2 = headerGet h k2 := by
  unfold headerGet headerSet
  rw [assocGet_set_ne _ _ _ _ hne]

/-- Adding one header does not change another canonical key's value. -/
theorem headerGet_add_ne (h : HdrMap) (k k2 v : String)
    (hne : canonicalHeaderKey k ≠ canonicalHeaderKey k2) :
    headerGet (headerAdd h k v) k2 = headerGet h k2 := by
  unfold headerGet headerAdd
  cases hx : assocGet h (canonicalHeaderKey k) with
  | some vs => rw [assocGet_set_ne _ _ _ _ hne]
  | none => rw [assocGet_set_ne _ _ _ _ hne]

/-- After adding under an equal canonical key, the visible value is either
unchanged or the added one. -/
theorem headerGet_add_cases (h : HdrMap) (k v k2 : String)
    (hc : canonicalHeaderKey k = canonicalHeaderKey k2) :
    headerGet (headerAdd h k v) k2 = headerGet h k2 ∨
    headerGet (headerAdd h k v) k2 = v := by
  unfold headerGet headerAdd
  rw [hc]
  cases hx : assocGet h (canonicalHeaderKey k2) with
  | none =>
    rw [assocGet_set_self]
    right
    rfl
  | some vs =>
    rw [assocGet_set_self]
    cases vs with
    | nil => right; rfl
    | cons x xs => left; rfl

/-- `WriteHeader` leaves the Content-Type non-empty whenever the state it
starts from satisfies the written-header invariant. -/
theorem writeHeader_ct_ne (w : ResponseWriter)
    (hprev : w.wroteHeader = true → headerGet w.header "Content-Type" ≠ "")
    (c : Nat) : headerGet (w.writeHeader c).header "Content-Type" ≠ "" := by
  unfold ResponseWriter.writeHeader
  by_cases hw : w.wroteHeader = true
  · rw [if_pos hw]
    exact hprev hw
  · rw [if_neg hw]
    by_cases hct : headerGet w.header "Content-Type" = ""
    · show headerGet (if headerGet w.header "Content-Type" = "" then
          headerSet w.header "Content-Type" "text/plain; charset=utf8"
        else w.header) "Content-Type" ≠ ""
      rw [if_pos hct, headerGet_set_self]
      decide
    · show headerGet (if headerGet w.header "Content-Type" = "" then
          headerSet w.header "Content-Type" "text/plain; charset=utf8"
        else w.header) "Content-Type" ≠ ""
      rw [if_neg hct]
      exact hct

/-- `Write` always leaves the header-written flag set. -/
theorem wroteHeader_write (w : ResponseWriter) (b : List Nat) :
    (w.write b).wroteHeader = true := by
  unfold ResponseWriter.write
  by_cases hw : w.wroteHeader = true
  · rw [if_neg (fun hn => hn hw)]
    exact hw
  · rw [if_pos hw]
    exact w.wroteHeader_writeHeader 200

/-- In every reachable sink state with the header written, the Content-Type
entry is non-empty. -/
theorem reachRW_content_type (w : ResponseWriter) (hr : ReachRW w) :
    w.wroteHeader = true → headerGet w.header "Content-Type" ≠ "" := by
  induction hr with
  | init => intro h; exact absurd h (by decide)
  | writeHeaderStep w2 c hr ih =>
    intro _
    exact writeHeader_ct_ne w2 ih c
  | writeStep w2 b hr ih =>
    intro _
    by_cases hw : w2.wroteHeader = true
    · have he : w2.write b = { w2 with buf := w2.buf ++ b } := by
        unfold ResponseWriter.write
        rw [if_neg (fun hn => hn hw)]
      rw [he]
      exact ih hw
    · have he : w2.write b =
          { w2.writeHeader 200 with buf := (w2.writeHeader 200).buf ++ b } := by
        unfold ResponseWriter.write
        rw [if_pos hw]
      rw [he]
      exact writeHeader_ct_ne w2 ih 200
  | setHeaderStep w2 k v hr hv ih =>
    intro hw
    by_cases hc : canonicalHeaderKey k = canonicalHeaderKey "Content-Type"
    · show headerGet (headerSet w2.header k v) "Content-Type" ≠ ""
      rw [headerGet_set_congr w2.header k "Content-Type" v hc]
      exact hv
    · show headerGet (headerSet w2.header k v) "Content-Type" ≠ ""
      rw [headerGet_set_ne w2.header k "Content-Type" v hc]
      exact ih hw
  | addHeaderStep w2 k v hr hv ih =>
    intro hw
    by_cases hc : canonicalHeaderKey k = canonicalHeaderKey "Content-Type"
    · show headerGet (headerAdd w2.header k v) "Content-Type" ≠ ""
      rcases headerGet_add_cases w2.header k v "Content-Type" hc with he | he
      · rw [he]; exact ih hw
      · rw [he]; exact hv
    · show headerGet (headerAdd w2.header k v) "Content-Type" ≠ ""
      rw [headerGet_add_ne w2.header k "Content-Type" v hc]
      exact ih hw

/-- In every reachable sink state, a non-empty buffer implies the header
was written. -/
theorem reachRW_buf_wrote (w : ResponseWriter) (hr : ReachRW w) :
    w.buf ≠ [] → w.wroteHeader = true := by
  induction hr with
  | init => intro h; exact absurd rfl h
  | writeHeaderStep w2 c hr ih =>
    intro _
    exact w2.wroteHeader_writeHeader c
  | writeStep w2 b hr ih =>
    intro _
    exact wroteHeader_write w2 b
  | setHeaderStep w2 k v hr hv ih => exact ih
  | addHeaderStep w2 k v hr hv ih => exact ih

/-- A handler run that never touches Content-Type is in particular a
handler run. -/
theorem reachNoCT_reach (w : ResponseWriter) (hr : ReachRWNoCT w) : ReachRW w := by
  induction hr with
  | init => exact ReachRW.init
  | writeHeaderStep w2 c hr ih => exact ReachRW.writeHeaderStep w2 c ih
  | writeStep w2 b hr ih => exact ReachRW.writeStep w2 b ih
  | setHeaderStep w2 k v hr hv hck ih => exact ReachRW.setHeaderStep w2 k v ih hv
  | addHeaderStep w2 k v hr hv hck ih => exact ReachRW.addHeaderStep w2 k v ih hv

/-- `WriteHeader` preserves the exact-Content-Type pair invariant of
runs that never touch Content-Type themselves. -/
theorem writeHeader_ct_pair (w : ResponseWriter)
    (hpair :
      (w.wroteHeader = true →
        headerGet w.header "Content-Type" = "text/plain; charset=utf8") ∧
      (w.wroteHeader = false → headerGet w.header "Content-Type" = ""))
    (c : Nat) :
    ((w.writeHeader c).wroteHeader = true →
      headerGet (w.writeHeader c).header "Content-Type" = "text/plain; charset=utf8") ∧
    ((w.writeHeader c).wroteHeader = false →
      headerGet (w.writeHeader c).header "Content-Type" = "") := by
  unfold ResponseWriter.writeHeader
  by_cases hw : w.wroteHeader = true
  · rw [if_pos hw]
    exact hpair
  · rw [if_neg hw]
    have hw2 : w.wroteHeader = false := by
      cases hb : w.wroteHeader
      · rfl
      · exact absurd hb hw
    have hct := hpair.2 hw2
    constructor
    · intro _
      show headerGet (if headerGet w.header "Content-Type" = "" then
          headerSet w.header "Content-Type" "text/plain; charset=utf8"
        else w.header) "Content-Type" = "text/plain; charset=utf8"
      rw [if_pos hct, headerGet_set_self]
    · intro hfalse
      exact absurd hfalse (by simp)

/-- In every reachable sink state of a handler that never touches
Content-Type: once the header is written the Content-Type is exactly the
default, and before that it is absent. -/
theorem reachNoCT_content_type (w : ResponseWriter) (hr : ReachRWNoCT w) :
    (w.wroteHeader = true →
      headerGet w.header "Content-Type" = "text/plain; charset=utf8") ∧
    (w.wroteHeader = false → headerGet w.header "Content-Type" = "") := by
  induction hr with
  | init =>
    constructor
    · intro h; exact absurd h (by decide)
    · intro _; rfl
  | writeHeaderStep w2 c hr ih => exact writeHeader_ct_pair w2 ih c
  | writeStep w2 b hr ih =>
    by_cases hw : w2.wroteHeader = true
    · have he : w2.write b = { w2 with buf := w2.buf ++ b } := by
        unfold ResponseWriter.write
        rw [if_neg (fun hn => hn hw)]
      rw [he]
      exact ih
    · have he : w2.write b =
          { w2.writeHeader 200 with buf := (w2.writeHeader 200).buf ++ b } := by
        unfold ResponseWriter.write
        rw [if_pos hw]
      rw [he]
      exact writeHeader_ct_pair w2 ih 200
  | setHeaderStep w2 k v hr hv hck ih =>
    have hc : canonicalHeaderKey k ≠ canonicalHeaderKey "Content-Type" := by
      intro he
      exact hck (he.trans (by decide))
    constructor
    · intro hw
      show headerGet (headerSet w2.header k v) "Content-Type" = _
      rw [headerGet_set_ne w2.header k "Content-Type" v hc]
      exact ih.1 hw
    · intro hw
      show headerGet (headerSet w2.header k v) "Content-Type" = ""
      rw [headerGet_set_ne w2.header k "Content-Type" v hc]
      exact ih.2 hw
  | addHeaderStep w2 k v hr hv hck ih =>
    have hc : canonicalHeaderKey k ≠ canonicalHeaderKey "Content-Type" := by
      intro he
      exact hck (he.trans (by decide))
    constructor
    · intro hw
      show headerGet (headerAdd w2.header k v) "Content-Type" = _
      rw [headerGet_add_ne w2.header k "Content-Type" v hc]
      exact ih.1 hw
    · intro hw
      show headerGet (headerAdd w2.header k v) "Content-Type" = ""
      rw [headerGet_add_ne w2.header k "Content-Type" v hc]
      exact ih.2 hw

/-- C10 counterexample: a handler that adds Content-Encoding gzip, never
touches Content-Type, and writes a body reaches a state whose conversion
sets the base64 flag to TRUE — the gzip encoding makes the body binary even
though the Content-Type was defaulted to the textual value, refuting the
claim's unconditional textual classification. -/
theorem body_write_content_type_counterexample :
    ReachRWNoCT gzipState ∧ gzipState.buf ≠ [] ∧
    headerGet gzipState.header "Content-Type" = "text/plain; charset=utf8" ∧
    (convertResponseV1 gzipState.captured).isBase64Encoded = true := by
  refine ⟨?_, by decide, by decide, by decide⟩
  exact ReachRWNoCT.writeStep _ _
    (ReachRWNoCT.addHeaderStep newResponse "Content-Encoding" "gzip"
      ReachRWNoCT.init (by decide) (by decide))

/-- C10 amended: in every reachable sink state in which a body byte has
been written, the header map holds a non-empty Content-Type; and a state
reached by a handler that wrote a body, never set a Content-Type, and whose
Content-Encoding is not gzip is classified as textual by both response
converters. -/
theorem body_write_content_type :
    (∀ w : ResponseWriter, ReachRW w → w.buf ≠ [] →
      headerGet w.header "Content-Type" ≠ "") ∧
    (∀ (w : ResponseWriter) (b : List Nat), ReachRW w →
      headerGet (w.write b).header "Content-Type" ≠ "") ∧
    (∀ w : ResponseWriter, ReachRWNoCT w → w.buf ≠ [] →
      headerGet w.header "Content-Encoding" ≠ "gzip" →
      (convertResponseV1 w.captured).isBase64Encoded = false ∧
      (convertResponseV2 w.captured).isBase64Encoded = false) := by
  refine ⟨?_, ?_, ?_⟩
  · intro w hr hb
    exact reachRW_content_type w hr (reachRW_buf_wrote w hr hb)
  · intro w b hr
    exact reachRW_content_type (w.write b) (ReachRW.writeStep w b hr)
      (wroteHeader_write w b)
  · intro w hr hb hgz
    have hw : w.wroteHeader = true :=
      reachRW_buf_wrote w (reachNoCT_reach w hr) hb
    have hct := (reachNoCT_content_type w hr).1 hw
    have hbin : isBinary w.header = false := by
      unfold isBinary
      rw [hct]
      have ht : isTextMime "text/plain; charset=utf8" = true := by decide
      rw [ht]
      simp only [Bool.not_true, Bool.false_or]
      exact beq_eq_false_iff_ne.mpr hgz
    exact ⟨hbin, hbin⟩

/-- C10 witness: a handler that only writes a body. -/
theorem body_write_content_type_witness :
    headerGet plainWriteState.header "Content-Type" ≠ "" ∧
    (convertResponseV1 plainWriteState.captured).isBase64Encoded = false ∧
    (convertResponseV2 plainWriteState.captured).isBase64Encoded = false := by
  have h1 := body_write_content_type.1 plainWriteState
    (ReachRW.writeStep newResponse (strBytes "ok") ReachRW.init) (by decide)
  have h2 := body_write_content_type.2.2 plainWriteState
    (ReachRWNoCT.writeStep newResponse (strBytes "ok") ReachRWNoCT.init)
    (by decide) (by decide)
  exact ⟨h1, h2.1, h2.2⟩
